import Mathlib

/-!
# Verification of the HYDROLIB workflow/plugin repository

A shallow embedding, in Lean 4, of the parts of the HYDROLIB repository that
the checked specification claims talk about:

* `hydrolib/hydromt_delft3dfm/workflows/crosssections.py`
  (`set_branch_crosssections`, `set_xyz_crosssections`, `xyzp2xyzl`),
* `hydrolib/hydromt_delft3dfm/dflowfm.py` (`setup_pipes` invert-level logic),
* `hydrolib/dhydamo/geometry/mesh.py`
  (`mesh2d_add_rectilinear` merge step, `links1d2d_add_links_1d_to_2d`,
  `_filter_links_on_idx`),
* `contrib/HydroLogic/hisreader.py` (`HisResults.__make_timeframe`),
* `contrib/Arcadis/scripts/change_friction_channels.py` (`change_friction_shape`),
* `contrib/Arcadis/scripts/export_statistics.py` (`statistics_dhydro`).

Machine floats of the source are modelled as exact rationals; external
libraries (shapely, meshkernel, numpy, pandas, the hydrolib-core file
writers) are modelled at the call boundary: either by explicit parameters
(e.g. a polyline-length function) or by direct implementations of the
documented behaviour of the library call used by the source (e.g. pandas
`describe`, `merge`, `drop_duplicates`).
-/

namespace Hydrolib

/-! ## Generic helpers shared by several embeddings -/

/-- Keep-first deduplication of a list of rows: the model of pandas
`DataFrame.drop_duplicates()` (default `keep="first"`). -/
def dedupFirst {α : Type} [DecidableEq α] : List α → List α
  | [] => []
  | a :: l => a :: dedupFirst (l.filter (fun x => x ≠ a))
termination_by l => l.length
decreasing_by
  simp only [List.length_cons]
  exact Nat.lt_succ_of_le (List.length_filter_le _ _)

/-- Maximum of a list, `none` on the empty list: the model of `numpy.max`,
which raises on a zero-size reduction. -/
def listMax {α : Type} [LinearOrder α] : List α → Option α
  | [] => none
  | a :: l => some (l.foldl max a)

theorem le_foldl_max {α : Type} [LinearOrder α] (l : List α) (a : α) :
    a ≤ l.foldl max a ∧ ∀ x ∈ l, x ≤ l.foldl max a := by
  induction l generalizing a with
  | nil => simp
  | cons b t ih =>
    simp only [List.foldl_cons]
    refine ⟨le_trans (le_max_left a b) (ih (max a b)).1, ?_⟩
    intro x hx
    rcases List.mem_cons.mp hx with rfl | hxt
    · exact le_trans (le_max_right a x) (ih (max a x)).1
    · exact (ih (max a b)).2 x hxt

theorem le_listMax {α : Type} [LinearOrder α] (l : List α) (m : α)
    (hm : listMax l = some m) : ∀ x ∈ l, x ≤ m := by
  cases l with
  | nil => simp [listMax] at hm
  | cons a t =>
    simp only [listMax, Option.some_inj] at hm
    subst hm
    intro x hx
    rcases List.mem_cons.mp hx with rfl | hxt
    · exact (le_foldl_max t x).1
    · exact (le_foldl_max t a).2 x hxt

/-- Stable insertion of an element into a sorted list (insert before the first
element it is `le` to). -/
def insertSorted {α : Type} (le : α → α → Bool) (a : α) : List α → List α
  | [] => [a]
  | b :: t => if le a b then a :: b :: t else b :: insertSorted le a t

/-- Stable insertion sort: the model of pandas `DataFrame.sort_values` (on rows
whose sort keys are pairwise distinct, every correct sort agrees with it). -/
def sortValues {α : Type} (le : α → α → Bool) : List α → List α
  | [] => []
  | a :: t => insertSorted le a (sortValues le t)

theorem insertSorted_perm {α : Type} (le : α → α → Bool) (a : α) (l : List α) :
    List.Perm (insertSorted le a l) (a :: l) := by
  induction l with
  | nil => simp [insertSorted]
  | cons b t ih =>
    simp only [insertSorted]
    by_cases h : le a b = true
    · simp [h]
    · simp only [h, if_false]
      exact List.Perm.trans (List.Perm.cons b ih) (List.Perm.swap a b t)

theorem sortValues_perm {α : Type} (le : α → α → Bool) (l : List α) :
    List.Perm (sortValues le l) l := by
  induction l with
  | nil => simp [sortValues]
  | cons a t ih =>
    simp only [sortValues]
    exact List.Perm.trans (insertSorted_perm le a _) (List.Perm.cons a ih)

/-- A total `le` stays a sorted-ness invariant through stable insertion. -/
theorem insertSorted_pairwise {α : Type} (le : α → α → Bool)
    (htot : ∀ x y, le x y = true ∨ le y x = true)
    (htrans : ∀ x y z, le x y = true → le y z = true → le x z = true)
    (a : α) (l : List α) (hl : List.Pairwise (fun x y => le x y = true) l) :
    List.Pairwise (fun x y => le x y = true) (insertSorted le a l) := by
  induction l with
  | nil => simp [insertSorted]
  | cons b t ih =>
    simp only [insertSorted]
    by_cases h : le a b = true
    · simp only [h, if_true]
      refine List.pairwise_cons.mpr ⟨?_, hl⟩
      intro x hx
      rcases List.mem_cons.mp hx with rfl | hx
      · exact h
      · exact htrans a b x h ((List.pairwise_cons.mp hl).1 x hx)
    · simp only [h, if_false]
      rcases List.pairwise_cons.mp hl with ⟨hb, ht⟩
      have hba : le b a = true := by
        rcases htot a b with h' | h'
        · exact absurd h' h
        · exact h'
      refine List.pairwise_cons.mpr ⟨?_, ih ht⟩
      intro x hx
      have hx' : x ∈ a :: t := (insertSorted_perm le a t).mem_iff.mp hx
      rcases List.mem_cons.mp hx' with rfl | hxt
      · exact hba
      · exact hb x hxt

theorem sortValues_pairwise {α : Type} (le : α → α → Bool)
    (htot : ∀ x y, le x y = true ∨ le y x = true)
    (htrans : ∀ x y z, le x y = true → le y z = true → le x z = true)
    (l : List α) :
    List.Pairwise (fun x y => le x y = true) (sortValues le l) := by
  induction l with
  | nil => simp [sortValues]
  | cons a t ih => exact insertSorted_pairwise le htot htrans a _ ih

/-! ## `hydrolib/dhydamo/geometry/mesh.py` — `mesh2d_add_rectilinear` (merge step)

The kernel calls (`mesh2d_create_rectilinear_within_extent`, `mesh2d_clip`)
are external; the clipped new mesh they leave in the network is therefore an
input here.  The embedding covers the merge step of `mesh2d_add_rectilinear`
(lines 49-94): snapshot the existing 2d mesh, and if it is non-empty, offset
the new mesh's `edge_nodes`/`face_nodes` by `existing.edge_nodes.max() + 1`
and concatenate all nine arrays. -/

/-- The parallel arrays of a meshkernel `Mesh2d` object, as touched by
`mesh2d_add_rectilinear`.  numpy integer arrays are `List ℤ`, float arrays
`List ℚ`; the 2-column `edge_nodes`/`face_nodes` index arrays are kept in
their flattened form (element-wise offsetting and concatenation, which is all
the source does to them, is the same either way). -/
structure Mesh2dArrays where
  node_x : List ℚ
  node_y : List ℚ
  edge_nodes : List ℤ
  face_nodes : List ℤ
  nodes_per_face : List ℤ
  edge_x : List ℚ
  edge_y : List ℚ
  face_x : List ℚ
  face_y : List ℚ
deriving Repr, DecidableEq

/-- Merge step of `mesh2d_add_rectilinear` (mesh.py lines 67-94):
`existing` is the snapshot taken before the kernel call, `new_mesh2d` the
rectilinear mesh generated and clipped by the kernel.  When the existing mesh
is empty the network simply keeps the new mesh.  `numpy.max` of an empty
`edge_nodes` array raises, modelled as `Except.error`. -/
def mesh2d_add_rectilinear_merge (existing new_mesh2d : Mesh2dArrays) :
    Except String Mesh2dArrays :=
  if existing.node_x.length > 0 then
    match listMax existing.edge_nodes with
    | none => .error "zero-size array reduction has no identity"
    | some m =>
      .ok {
        node_x := existing.node_x ++ new_mesh2d.node_x
        node_y := existing.node_y ++ new_mesh2d.node_y
        edge_nodes := existing.edge_nodes ++ new_mesh2d.edge_nodes.map (fun i => i + (m + 1))
        face_nodes := existing.face_nodes ++ new_mesh2d.face_nodes.map (fun i => i + (m + 1))
        nodes_per_face := existing.nodes_per_face ++ new_mesh2d.nodes_per_face
        edge_x := existing.edge_x ++ new_mesh2d.edge_x
        edge_y := existing.edge_y ++ new_mesh2d.edge_y
        face_x := existing.face_x ++ new_mesh2d.face_x
        face_y := existing.face_y ++ new_mesh2d.face_y }
  else .ok new_mesh2d

/-! ## `hydrolib/dhydamo/geometry/mesh.py` — `links1d2d_add_links_1d_to_2d`

The link generation itself (`Link1d2d._link_from_1d_to_2d`, a meshkernel
call) is external: the links (and the parallel contact-type/id/long-name
entries) it appends are inputs here.  The embedding covers the length filter
of `links1d2d_add_links_1d_to_2d` (lines 263-329) and `_filter_links_on_idx`
(lines 410-418). -/

/-- The parts of a `Network` touched by the link filter: 1d node and 2d face
centre coordinate arrays, and the four parallel link arrays. -/
structure LinkNetwork where
  mesh1d_node_x : List ℚ
  mesh1d_node_y : List ℚ
  mesh2d_face_x : List ℚ
  mesh2d_face_y : List ℚ
  link1d2d : List (ℕ × ℕ)
  link1d2d_contact_type : List ℤ
  link1d2d_id : List String
  link1d2d_long_name : List String
deriving Repr, DecidableEq

/-- `_filter_links_on_idx` (mesh.py lines 410-418): numpy fancy indexing of
all four parallel link arrays by the `keep` index array. -/
def filter_links_on_idx (net : LinkNetwork) (keep : List ℕ) : LinkNetwork :=
  { net with
    link1d2d := keep.filterMap net.link1d2d.get?
    link1d2d_contact_type := keep.filterMap net.link1d2d_contact_type.get?
    link1d2d_id := keep.filterMap net.link1d2d_id.get?
    link1d2d_long_name := keep.filterMap net.link1d2d_long_name.get? }

/-- Squared euclidean length of a link, from the 1d node to the 2d face
centre (mesh.py lines 315-325 compute `np.hypot` of the coordinate
differences; we carry the square to stay inside ℚ). -/
def linkDist2 (net : LinkNetwork) (link : ℕ × ℕ) : ℚ :=
  (net.mesh1d_node_x.getD link.1 0 - net.mesh2d_face_x.getD link.2 0) ^ 2
    + (net.mesh1d_node_y.getD link.1 0 - net.mesh2d_face_y.getD link.2 0) ^ 2

/-- Exact ℚ-encoding of `np.hypot(dx, dy) < m`: a nonnegative euclidean
length is below `m` iff `m` is positive and the squared length is below
`m ^ 2`. -/
def euclLt (d2 m : ℚ) : Bool :=
  decide (0 < m) && decide (d2 < m ^ 2)

/-- `links1d2d_add_links_1d_to_2d` (mesh.py lines 263-329).  The generated
links and their parallel contact-type/id/long-name entries (appended to the
network by the external `_link_from_1d_to_2d`) are the `newLinks` /
`newContactTypes` / `newIds` / `newNames` parameters.  After generation the
function keeps index `np.arange(npresent)` (all previously present links,
unfiltered) plus the indices of the new links whose node-to-face length is
strictly below `max_length`. -/
def links1d2d_add_links_1d_to_2d (net : LinkNetwork)
    (newLinks : List (ℕ × ℕ)) (newContactTypes : List ℤ)
    (newIds newNames : List String) (max_length : ℚ) : LinkNetwork :=
  let npresent := net.link1d2d.length
  let net1 : LinkNetwork := { net with
    link1d2d := net.link1d2d ++ newLinks
    link1d2d_contact_type := net.link1d2d_contact_type ++ newContactTypes
    link1d2d_id := net.link1d2d_id ++ newIds
    link1d2d_long_name := net.link1d2d_long_name ++ newNames }
  let keepNew := (List.range newLinks.length).filter
    (fun i => euclLt (linkDist2 net (newLinks.getD i (0, 0))) max_length)
  let keep := List.range npresent ++ keepNew.map (fun i => i + npresent)
  filter_links_on_idx net1 keep

theorem filterMap_congr_mem {α β : Type} (l : List α) (f g : α → Option β)
    (h : ∀ x ∈ l, f x = g x) : l.filterMap f = l.filterMap g := by
  induction l with
  | nil => rfl
  | cons a t ih =>
    have ha := h a (List.mem_cons_self a t)
    have ht := ih (fun x hx => h x (List.mem_cons_of_mem a hx))
    simp only [List.filterMap_cons, ha, ht]

theorem filterMap_get?_range {α : Type} (l : List α) :
    (List.range l.length).filterMap l.get? = l := by
  induction l with
  | nil => rfl
  | cons a t ih =>
    rw [List.length_cons, List.range_succ_eq_map, List.filterMap_cons,
      List.filterMap_map]
    have : (a :: t).get? 0 = some a := rfl
    rw [this]
    have : (List.filterMap ((a :: t).get? ∘ Nat.succ) (List.range t.length))
        = List.filterMap t.get? (List.range t.length) := by
      exact filterMap_congr_mem _ _ _ (fun x _ => rfl)
    rw [this, ih]

theorem filterMap_get?_filter_range {α : Type} (l : List α) (q : α → Bool) (d : α) :
    ((List.range l.length).filter (fun i => q (l.getD i d))).filterMap l.get?
      = l.filter q := by
  induction l with
  | nil => rfl
  | cons c t ih =>
    have hmap : (List.map Nat.succ (List.range t.length)).filter
        (fun i => q ((c :: t).getD i d))
        = ((List.range t.length).filter (fun i => q (t.getD i d))).map Nat.succ := by
      rw [List.filter_map]
      rfl
    have hcong : List.filterMap ((c :: t).get? ∘ Nat.succ)
        ((List.range t.length).filter (fun i => q (t.getD i d)))
        = List.filter q t := by
      rw [filterMap_congr_mem _ ((c :: t).get? ∘ Nat.succ) t.get? (fun x _ => rfl),
        ih]
    rw [List.length_cons, List.range_succ_eq_map, List.filter_cons]
    have hget0 : (c :: t).getD 0 d = c := rfl
    rw [hget0]
    by_cases hq : q c = true
    · rw [if_pos hq, List.filterMap_cons, hmap, List.filterMap_map, hcong]
      have h0 : (c :: t).get? 0 = some c := rfl
      rw [h0, List.filter_cons, if_pos hq]
    · rw [if_neg hq, hmap, List.filterMap_map, hcong, List.filter_cons, if_neg hq]

/-- Index-selection over a concatenation: keeping `range a.length` plus the
shifted filtered indices of `b` yields `a ++ b.filter q`. -/
theorem filterMap_get?_keep {α : Type} (a b : List α) (q : α → Bool) (d : α) :
    (List.range a.length ++
        (((List.range b.length).filter (fun i => q (b.getD i d))).map
          (fun i => i + a.length))).filterMap (a ++ b).get?
      = a ++ b.filter q := by
  rw [List.filterMap_append]
  have h1 : (List.range a.length).filterMap (a ++ b).get?
      = (List.range a.length).filterMap a.get? := by
    refine filterMap_congr_mem _ _ _ (fun i hi => ?_)
    have hlt : i < a.length := List.mem_range.mp hi
    exact List.get?_append hlt
  have h2 : ((((List.range b.length).filter (fun i => q (b.getD i d))).map
        (fun i => i + a.length))).filterMap (a ++ b).get?
      = (((List.range b.length).filter (fun i => q (b.getD i d)))).filterMap
          b.get? := by
    rw [List.filterMap_map]
    refine filterMap_congr_mem _ _ _ (fun i _ => ?_)
    have hle : a.length ≤ i + a.length := Nat.le_add_left _ _
    simp only [Function.comp_apply]
    rw [List.get?_append_right hle]
    congr 1
    omega
  rw [h1, h2, filterMap_get?_range, filterMap_get?_filter_range]

/-- Shape of the link array after `links1d2d_add_links_1d_to_2d`: the old
links, unconditionally, followed by the generated links that pass the length
filter. -/
theorem links1d2d_add_spec (net : LinkNetwork) (newLinks : List (ℕ × ℕ))
    (newContactTypes : List ℤ) (newIds newNames : List String) (max_length : ℚ) :
    (links1d2d_add_links_1d_to_2d net newLinks newContactTypes newIds newNames
        max_length).link1d2d
      = net.link1d2d
        ++ newLinks.filter (fun l => euclLt (linkDist2 net l) max_length) := by
  simp only [links1d2d_add_links_1d_to_2d, filter_links_on_idx]
  exact filterMap_get?_keep net.link1d2d newLinks
    (fun l => euclLt (linkDist2 net l) max_length) (0, 0)

/-- C4: after a call to `links1d2d_add_links_1d_to_2d` with a finite
(nonnegative) `max_length`, every 1D-2D link that existed before the call is
still present — the previously present links are kept verbatim as the prefix
of the link array — and every link newly generated by the call whose
euclidean node-to-face-centre distance exceeds `max_length` (squared distance
above `max_length ^ 2`) is absent from the part appended by the call. -/
theorem c4_links1d2d_preserves_old_and_discards_long (net : LinkNetwork)
    (newLinks : List (ℕ × ℕ)) (newContactTypes : List ℤ)
    (newIds newNames : List String) (max_length : ℚ)
    (hm : 0 ≤ max_length) :
    ((links1d2d_add_links_1d_to_2d net newLinks newContactTypes newIds newNames
        max_length).link1d2d.take net.link1d2d.length = net.link1d2d)
    ∧ (∀ l ∈ net.link1d2d,
        l ∈ (links1d2d_add_links_1d_to_2d net newLinks newContactTypes newIds
          newNames max_length).link1d2d)
    ∧ (∀ nl ∈ newLinks, linkDist2 net nl > max_length ^ 2 →
        nl ∉ (links1d2d_add_links_1d_to_2d net newLinks newContactTypes newIds
          newNames max_length).link1d2d.drop net.link1d2d.length) := by
  have hspec := links1d2d_add_spec net newLinks newContactTypes newIds newNames
    max_length
  refine ⟨?_, ?_, ?_⟩
  · rw [hspec, List.take_left]
  · intro l hl
    rw [hspec]
    exact List.mem_append_left _ hl
  · intro nl _ hfar hmem
    rw [hspec, List.drop_left] at hmem
    have hkeep := (List.mem_filter.mp hmem).2
    simp only [euclLt, Bool.and_eq_true, decide_eq_true_eq] at hkeep
    exact absurd hkeep.2 (not_lt.mpr (le_of_lt hfar))

/-- Concrete network for the C4 witness: one pre-existing link of length 7
(longer than the `max_length` of 5 used below), and coordinates under which
a generated link `(0, 0)` has length 3 and a generated link `(0, 1)` has
length 9. -/
def exNetC4 : LinkNetwork :=
  { mesh1d_node_x := [0, 10]
    mesh1d_node_y := [0, 0]
    mesh2d_face_x := [3, 9]
    mesh2d_face_y := [0, 0]
    link1d2d := [(1, 0)]
    link1d2d_contact_type := [3]
    link1d2d_id := ["1dlink"]
    link1d2d_long_name := ["existing link"] }

theorem c4_links1d2d_witness :
    (0 : ℚ) ≤ 5
    ∧ (((links1d2d_add_links_1d_to_2d exNetC4 [(0, 0), (0, 1)] [3, 3]
          ["a", "b"] ["a", "b"] 5).link1d2d.take exNetC4.link1d2d.length
        = exNetC4.link1d2d)
      ∧ (∀ l ∈ exNetC4.link1d2d,
          l ∈ (links1d2d_add_links_1d_to_2d exNetC4 [(0, 0), (0, 1)] [3, 3]
            ["a", "b"] ["a", "b"] 5).link1d2d)
      ∧ (∀ nl ∈ [((0 : ℕ), (0 : ℕ)), (0, 1)], linkDist2 exNetC4 nl > 5 ^ 2 →
          nl ∉ (links1d2d_add_links_1d_to_2d exNetC4 [(0, 0), (0, 1)] [3, 3]
            ["a", "b"] ["a", "b"] 5).link1d2d.drop exNetC4.link1d2d.length)) :=
  ⟨by norm_num,
    c4_links1d2d_preserves_old_and_discards_long exNetC4 [(0, 0), (0, 1)] [3, 3]
      ["a", "b"] ["a", "b"] 5 (by norm_num)⟩

/-- C5: when `mesh2d_add_rectilinear` merges the generated mesh into an
existing non-empty 2D mesh, every node index in the new mesh's `edge_nodes`
and `face_nodes` arrays is offset by `(existing.edge_nodes.max()) + 1` before
concatenation, and (for the nonnegative indices a mesh contains) no offset
new index equals an index already used by the existing mesh's edges. -/
theorem c5_mesh2d_merge_offsets (existing new_mesh2d : Mesh2dArrays) (m : ℤ)
    (hne : existing.node_x.length > 0)
    (hmax : listMax existing.edge_nodes = some m)
    (hnn : ∀ i ∈ new_mesh2d.edge_nodes ++ new_mesh2d.face_nodes, 0 ≤ i) :
    ∃ merged, mesh2d_add_rectilinear_merge existing new_mesh2d = .ok merged
      ∧ merged.edge_nodes
          = existing.edge_nodes ++ new_mesh2d.edge_nodes.map (fun i => i + (m + 1))
      ∧ merged.face_nodes
          = existing.face_nodes ++ new_mesh2d.face_nodes.map (fun i => i + (m + 1))
      ∧ (∀ j ∈ new_mesh2d.edge_nodes.map (fun i => i + (m + 1)),
          j ∉ existing.edge_nodes)
      ∧ (∀ j ∈ new_mesh2d.face_nodes.map (fun i => i + (m + 1)),
          j ∉ existing.edge_nodes) := by
  have hnocollide : ∀ (src : List ℤ), (∀ i ∈ src, 0 ≤ i) →
      ∀ j ∈ src.map (fun i => i + (m + 1)), j ∉ existing.edge_nodes := by
    intro src hsrc j hj hmem
    rcases List.mem_map.mp hj with ⟨i, hi, rfl⟩
    have hle : i + (m + 1) ≤ m := le_listMax _ m hmax _ hmem
    have hpos : 0 ≤ i := hsrc i hi
    omega
  unfold mesh2d_add_rectilinear_merge
  rw [if_pos hne, hmax]
  exact ⟨_, rfl, rfl, rfl,
    hnocollide _ (fun i hi => hnn i (List.mem_append_left _ hi)),
    hnocollide _ (fun i hi => hnn i (List.mem_append_right _ hi))⟩

/-- Concrete meshes for the C5 witness: the existing mesh uses node indices
0..2 in its edges; the generated mesh's indices 0..2 get offset by 3. -/
def exExistingC5 : Mesh2dArrays :=
  { node_x := [0, 1, 2]
    node_y := [0, 0, 1]
    edge_nodes := [0, 1, 1, 2]
    face_nodes := [0, 1, 2]
    nodes_per_face := [3]
    edge_x := [1/2, 3/2]
    edge_y := [0, 1/2]
    face_x := [1]
    face_y := [1/3] }

def exNewC5 : Mesh2dArrays :=
  { node_x := [5, 6, 5]
    node_y := [5, 5, 6]
    edge_nodes := [0, 1, 1, 2]
    face_nodes := [0, 1, 2]
    nodes_per_face := [3]
    edge_x := [11/2, 11/2]
    edge_y := [5, 11/2]
    face_x := [16/3]
    face_y := [16/3] }

theorem c5_mesh2d_merge_witness :
    (exExistingC5.node_x.length > 0
      ∧ listMax exExistingC5.edge_nodes = some 2
      ∧ (∀ i ∈ exNewC5.edge_nodes ++ exNewC5.face_nodes, (0 : ℤ) ≤ i))
    ∧ ∃ merged,
        mesh2d_add_rectilinear_merge exExistingC5 exNewC5 = .ok merged
        ∧ merged.edge_nodes
            = exExistingC5.edge_nodes
              ++ exNewC5.edge_nodes.map (fun i => i + ((2 : ℤ) + 1))
        ∧ merged.face_nodes
            = exExistingC5.face_nodes
              ++ exNewC5.face_nodes.map (fun i => i + ((2 : ℤ) + 1))
        ∧ (∀ j ∈ exNewC5.edge_nodes.map (fun i => i + ((2 : ℤ) + 1)),
            j ∉ exExistingC5.edge_nodes)
        ∧ (∀ j ∈ exNewC5.face_nodes.map (fun i => i + ((2 : ℤ) + 1)),
            j ∉ exExistingC5.edge_nodes) :=
  ⟨⟨by decide, by decide, by decide⟩,
    c5_mesh2d_merge_offsets exExistingC5 exNewC5 2 (by decide) (by decide)
      (by decide)⟩

/-! ## `hydrolib/hydromt_delft3dfm/dflowfm.py` — `setup_pipes` invert levels

The embedding covers the allowed-columns filter of `setup_pipes`
(dflowfm.py lines 570-585) and its invert-level derivation block (lines
635-669), which runs on the pipes table produced by `_setup_branches`.  The
two workflow helpers the block calls (`update_data_columns_attributes`,
`invert_levels_from_dem`) live in `workflows/branches.py`, which is not
among the sources; they are modelled from the spec.  `_setup_branches` and
the frictionId assignment, which run between the two embedded pieces, do not
touch the invert-level columns (the defaults table built by `setup_pipes`
carries no invert-level columns), so on the columns modelled here they are
the identity. -/

/-- One row of the pipes table, restricted to the columns the invert-level
block reads or writes.  A `none` value is a pandas null. -/
structure PipeRow where
  branchId : String
  branchType : String
  invlev_up : Option ℚ
  invlev_dn : Option ℚ
deriving Repr, DecidableEq

/-- The pipes table: its rows plus, for the two invert-level columns, whether
the column is present at all (a pandas frame can lack a column outright; an
absent column carries `none` in every row here). -/
structure PipesTable where
  hasInvlevUp : Bool
  hasInvlevDn : Bool
  rows : List PipeRow
deriving Repr, DecidableEq

/-- Modelled from the spec: `update_data_columns_attributes` (in
`workflows/branches.py`, which is not among the sources) "joins a
`branchType`-keyed defaults table onto the input, filling any column absent
or null, without overwriting populated values" (spec §4.2); here specialised
to a one-row defaults table carrying `invlev_up`/`invlev_dn` for branch type
`brtype`, as built by `setup_pipes` step 3. -/
def update_data_columns_attributes (pipes : PipesTable) (brtype : String)
    (dinvup dinvdn : ℚ) : PipesTable :=
  { hasInvlevUp := true
    hasInvlevDn := true
    rows := pipes.rows.map fun r =>
      if r.branchType = brtype then
        { r with
          invlev_up := some (r.invlev_up.getD dinvup)
          invlev_dn := some (r.invlev_dn.getD dinvdn) }
      else r }

/-- Modelled from the spec: `invert_levels_from_dem` (in
`workflows/branches.py`, which is not among the sources) derives both invert
levels from a terrain raster as "DEM - pipes_depth - pipes diameter/height"
(`setup_pipes` docstring, spec §4.10).  The sampled terrain elevation and the
conduit's vertical size are inputs. -/
def invert_levels_from_dem (rows : List PipeRow) (dem : PipeRow → ℚ)
    (size : PipeRow → ℚ) (depth : ℚ) : List PipeRow :=
  rows.map fun r =>
    { r with
      invlev_up := some (dem r - depth - size r)
      invlev_dn := some (dem r - depth - size r) }

/-- Invert-level derivation block of `setup_pipes` (dflowfm.py lines
635-669).  Notes on fidelity: the Python guard
`if "invlev_up" and "invlev_dn" in pipes.columns` evaluates to
`"invlev_dn" in pipes.columns` (the string literal `"invlev_up"` is truthy),
so only the presence of `invlev_dn` is tested; selecting
`pipes[["invlev_up", "invlev_dn"]]` when `invlev_up` is absent then raises a
`KeyError` (the `Except.error` case).  `fill_invlev` is true iff
`inv.isnull().sum().sum() > 0`.  The DEM branch runs only when
`fill_invlev` holds and a `dem_fn` was supplied; otherwise the constant
`pipes_invlev` fallback table is applied through
`update_data_columns_attributes`. -/
def setup_pipes_invlev (pipes : PipesTable) (dem : Option (PipeRow → ℚ))
    (size : PipeRow → ℚ) (pipes_depth pipes_invlev : ℚ) :
    Except String PipesTable :=
  if pipes.hasInvlevDn ∧ ¬ pipes.hasInvlevUp then
    .error "KeyError: invlev_up"
  else
    let fill_invlev : Bool :=
      if pipes.hasInvlevDn then
        decide (0 < pipes.rows.countP (fun r => r.invlev_up.isNone)
          + pipes.rows.countP (fun r => r.invlev_dn.isNone))
      else
        true
    match fill_invlev, dem with
    | true, some d =>
      .ok { hasInvlevUp := true
            hasInvlevDn := true
            rows := invert_levels_from_dem pipes.rows d size pipes_depth }
    | _, _ =>
      .ok (update_data_columns_attributes pipes "pipe" pipes_invlev pipes_invlev)

/-- Allowed-columns list of `setup_pipes` (dflowfm.py lines 571-584),
verbatim from the source: note the misspelled entry `"inlev_dn"` where the
downstream invert-level column is actually named `"invlev_dn"`. -/
def _allowed_columns : List String :=
  ["geometry", "branchId", "branchType", "branchOrder", "material",
   "spacing", "shape", "diameter", "width", "height",
   "invlev_up", "inlev_dn"]

/-- Allowed-columns filter of `setup_pipes` (dflowfm.py lines 570-585):
`gdf_pipe = gdf_pipe[set(_allowed_columns).intersection(gdf_pipe.columns)]`.
A column survives iff its name is in `_allowed_columns`; restricted to the
two invert-level columns tracked here, `invlev_up` is in the list while
`invlev_dn` is not (the list holds the misspelling `"inlev_dn"` instead), so
a source's `invlev_dn` column is dropped: its presence flag goes false and
its values are gone. -/
def filter_allowed_columns (pipes : PipesTable) : PipesTable :=
  { hasInvlevUp := pipes.hasInvlevUp && _allowed_columns.contains "invlev_up"
    hasInvlevDn := pipes.hasInvlevDn && _allowed_columns.contains "invlev_dn"
    rows := pipes.rows.map fun r =>
      { r with
        invlev_up :=
          if _allowed_columns.contains "invlev_up" then r.invlev_up else none
        invlev_dn :=
          if _allowed_columns.contains "invlev_dn" then r.invlev_dn
          else none } }

/-- `setup_pipes`, from the allowed-columns filter (dflowfm.py lines
570-585) through the invert-level block (lines 635-669), restricted to the
invert-level columns.  The steps in between (`_setup_branches`, the
frictionId assignment) do not touch these columns. -/
def setup_pipes (pipes : PipesTable) (dem : Option (PipeRow → ℚ))
    (size : PipeRow → ℚ) (pipes_depth pipes_invlev : ℚ) :
    Except String PipesTable :=
  setup_pipes_invlev (filter_allowed_columns pipes) dem size pipes_depth
    pipes_invlev

/-- The invert-level block taken on its own (dflowfm.py lines 635-669) does
behave as the spec describes: if the table reaching it still had both
columns fully populated, it would pass them through unchanged.  The flaw
refuting C2 sits upstream, in the allowed-columns filter. -/
theorem setup_pipes_invlev_keeps_explicit (pipes : PipesTable)
    (dem : PipeRow → ℚ) (size : PipeRow → ℚ) (pipes_depth pipes_invlev : ℚ)
    (hUp : pipes.hasInvlevUp = true) (hDn : pipes.hasInvlevDn = true)
    (hfull : ∀ r ∈ pipes.rows, r.invlev_up.isSome ∧ r.invlev_dn.isSome) :
    setup_pipes_invlev pipes (some dem) size pipes_depth pipes_invlev
      = .ok pipes := by
  have hcup : pipes.rows.countP (fun r => r.invlev_up.isNone) = 0 := by
    rw [List.countP_eq_zero]
    intro r hr
    simp [Option.isNone_iff_eq_none,
      Option.isSome_iff_ne_none.mp (hfull r hr).1]
  have hcdn : pipes.rows.countP (fun r => r.invlev_dn.isNone) = 0 := by
    rw [List.countP_eq_zero]
    intro r hr
    simp [Option.isNone_iff_eq_none,
      Option.isSome_iff_ne_none.mp (hfull r hr).2]
  have hupdate : update_data_columns_attributes pipes "pipe" pipes_invlev
      pipes_invlev = pipes := by
    have hpt : ∀ r ∈ pipes.rows,
        (if r.branchType = "pipe" then
          { r with
            invlev_up := some (r.invlev_up.getD pipes_invlev)
            invlev_dn := some (r.invlev_dn.getD pipes_invlev) }
        else r) = r := by
      intro r hr
      rcases Option.isSome_iff_exists.mp (hfull r hr).1 with ⟨v1, hv1⟩
      rcases Option.isSome_iff_exists.mp (hfull r hr).2 with ⟨v2, hv2⟩
      obtain ⟨bid, btype, iu, idn⟩ := r
      simp only [PipeRow.mk.injEq] at hv1 hv2 ⊢
      by_cases hb : btype = "pipe" <;> simp [hb, hv1, hv2]
    obtain ⟨hU, hD, rows⟩ := pipes
    simp only at hUp hDn hpt
    subst hUp
    subst hDn
    simp only [update_data_columns_attributes, PipesTable.mk.injEq,
      true_and]
    exact List.map_congr_left hpt |>.trans (List.map_id rows)
  simp only [setup_pipes_invlev, hUp, hDn, hcup, hcdn, hupdate]
  simp

/-- A list equal to its own map has every element fixed by the function. -/
theorem list_map_eq_self_forall {α : Type} (f : α → α) :
    ∀ l : List α, l.map f = l → ∀ x ∈ l, f x = x
  | [], _, x, hx => absurd hx (List.not_mem_nil x)
  | a :: t, h, x, hx => by
    rw [List.map_cons, List.cons.injEq] at h
    rcases List.mem_cons.mp hx with rfl | hx'
    · exact h.1
    · exact list_map_eq_self_forall f t h.2 x hx'

/-- C2, refuted by the source: even when the pipes source fully populates
both `invlev_up` and `invlev_dn`, the allowed-columns filter of
`setup_pipes` (dflowfm.py lines 570-585) drops the `invlev_dn` column —
its list misspells the name as `"inlev_dn"` — so the presence guard of the
invert-level block fails, `fill_invlev` is forced true, and a supplied
`dem_fn` overwrites both invert levels with the DEM derivation.  The
explicit values do not pass through: whenever any row's explicit
`invlev_up` differs from its DEM-derived value, the result is not the input
table. -/
theorem c2_allowed_columns_drop_makes_dem_overwrite (pipes : PipesTable)
    (dem : PipeRow → ℚ) (size : PipeRow → ℚ) (pipes_depth pipes_invlev : ℚ)
    (hUp : pipes.hasInvlevUp = true) (hDn : pipes.hasInvlevDn = true)
    (hfull : ∀ r ∈ pipes.rows, r.invlev_up.isSome ∧ r.invlev_dn.isSome)
    (hdiff : ∃ r ∈ pipes.rows,
      r.invlev_up ≠ some (dem { r with invlev_dn := none } - pipes_depth
        - size { r with invlev_dn := none })) :
    (filter_allowed_columns pipes).hasInvlevDn = false
    ∧ setup_pipes pipes (some dem) size pipes_depth pipes_invlev
        = .ok { hasInvlevUp := true
                hasInvlevDn := true
                rows := invert_levels_from_dem
                  (filter_allowed_columns pipes).rows dem size pipes_depth }
    ∧ setup_pipes pipes (some dem) size pipes_depth pipes_invlev
        ≠ .ok pipes := by
  have hupc : _allowed_columns.contains "invlev_up" = true := by decide
  have hdnc : _allowed_columns.contains "invlev_dn" = false := by decide
  have hdn : (filter_allowed_columns pipes).hasInvlevDn = false := by
    simp only [filter_allowed_columns, hdnc, Bool.and_false]
  have hrun : setup_pipes pipes (some dem) size pipes_depth pipes_invlev
      = .ok { hasInvlevUp := true
              hasInvlevDn := true
              rows := invert_levels_from_dem
                (filter_allowed_columns pipes).rows dem size pipes_depth } := by
    unfold setup_pipes setup_pipes_invlev
    rw [hdn]
    simp
  refine ⟨hdn, hrun, ?_⟩
  rw [hrun]
  intro heq
  have hrows : invert_levels_from_dem (filter_allowed_columns pipes).rows
      dem size pipes_depth = pipes.rows := by
    injection heq with h
    exact congrArg PipesTable.rows h
  have hfrows : (filter_allowed_columns pipes).rows
      = pipes.rows.map (fun r => { r with invlev_dn := none }) := by
    simp only [filter_allowed_columns, hupc, hdnc]
    simp
  rw [hfrows] at hrows
  simp only [invert_levels_from_dem, List.map_map] at hrows
  rcases hdiff with ⟨r0, hr0, hneq⟩
  have hfix := list_map_eq_self_forall _ _ hrows r0 hr0
  exact hneq (congrArg PipeRow.invlev_up hfix).symm

/-- Concrete pipes table for the C2 witness: both invert-level columns
present and fully populated. -/
def exPipesC2 : PipesTable :=
  { hasInvlevUp := true
    hasInvlevDn := true
    rows := [⟨"pipe_1", "pipe", some (-2), some (-23/10)⟩,
             ⟨"pipe_2", "pipe", some (-3/2), some (-2)⟩] }

theorem c2_allowed_columns_drop_witness :
    (exPipesC2.hasInvlevUp = true ∧ exPipesC2.hasInvlevDn = true
      ∧ (∀ r ∈ exPipesC2.rows, r.invlev_up.isSome ∧ r.invlev_dn.isSome)
      ∧ ∃ r ∈ exPipesC2.rows,
          r.invlev_up ≠ some ((99 : ℚ) - (-2) - 0))
    ∧ (filter_allowed_columns exPipesC2).hasInvlevDn = false
    ∧ setup_pipes exPipesC2 (some fun _ => 99) (fun _ => 0) (-2) (-5/2)
        = .ok { hasInvlevUp := true
                hasInvlevDn := true
                rows := invert_levels_from_dem
                  (filter_allowed_columns exPipesC2).rows (fun _ => 99)
                  (fun _ => 0) (-2) }
    ∧ setup_pipes exPipesC2 (some fun _ => 99) (fun _ => 0) (-2) (-5/2)
        ≠ .ok exPipesC2 := by
  have hdiff : ∃ r ∈ exPipesC2.rows,
      r.invlev_up ≠ some ((99 : ℚ) - (-2) - 0) := by
    refine ⟨⟨"pipe_1", "pipe", some (-2), some (-23/10)⟩,
      List.mem_cons_self _ _, ?_⟩
    intro h
    rw [Option.some_inj] at h
    norm_num at h
  exact ⟨⟨rfl, rfl, by decide, hdiff⟩,
    c2_allowed_columns_drop_makes_dem_overwrite exPipesC2 (fun _ => 99)
      (fun _ => 0) (-2) (-5/2) rfl rfl (by decide) hdiff⟩

/-! ## `contrib/HydroLogic/hisreader.py` — `HisResults.__make_timeframe`

The reader parses the `time` variable's units string
(`"... since <ISO8601 datetime>[+00:00]"`), takes the datetime after
`"since "`, strips a `+00:00` suffix and whitespace, parses it with
`datetime.fromisoformat`, and builds
`pd.date_range(start, start + max(times) seconds, freq="{t[1]-t[0]}S")`.
Datetimes are modelled as rational second counts on the proleptic Gregorian
axis used by Python's `datetime.toordinal`. -/

/-- Whether `sep` is a prefix of the second list. -/
def isPrefixList : List Char → List Char → Bool
  | [], _ => true
  | _ :: _, [] => false
  | a :: as, b :: bs => a = b && isPrefixList as bs

/-- Fuel-driven splitting of a character list on a non-empty separator
sequence (the fuel, the input length at the top call, only bounds the
recursion). -/
def splitOnFuel (sep : List Char) : ℕ → List Char → List Char → List (List Char)
  | 0, s, acc => [acc.reverse ++ s]
  | fuel + 1, s, acc =>
    match s with
    | [] => [acc.reverse]
    | c :: rest =>
      if isPrefixList sep (c :: rest) then
        acc.reverse :: splitOnFuel sep fuel ((c :: rest).drop sep.length) []
      else
        splitOnFuel sep fuel rest (c :: acc)

/-- Python `str.split(sep)` for a non-empty separator (every separator used
by the embedded code is non-empty; Python raises on an empty one). -/
def pySplit (s sep : String) : List String :=
  if sep.data = [] then [s]
  else (splitOnFuel sep.data s.data.length s.data []).map (fun l => { data := l })

/-- Fuel-driven replacement of every occurrence of a non-empty pattern. -/
def replaceFuel (pat rep : List Char) : ℕ → List Char → List Char
  | 0, s => s
  | fuel + 1, s =>
    match s with
    | [] => []
    | c :: rest =>
      if isPrefixList pat (c :: rest) then
        rep ++ replaceFuel pat rep fuel ((c :: rest).drop pat.length)
      else
        c :: replaceFuel pat rep fuel rest

/-- Python `str.replace(pattern, replacement)` for a non-empty pattern (the
embedded code only replaces `"+00:00"`). -/
def pyReplace (s pattern replacement : String) : String :=
  if pattern.data = [] then s
  else { data := replaceFuel pattern.data replacement.data s.data.length s.data }

def isSpaceChar (c : Char) : Bool :=
  c = ' ' || c = '\t' || c = '\n' || c = '\r'

/-- Python `str.strip()`: whitespace removed from both ends. -/
def pyStrip (s : String) : String :=
  { data := (((s.data.dropWhile isSpaceChar).reverse.dropWhile
      isSpaceChar).reverse) }

/-- Digits-only parse of a character list into a number. -/
def digitsToNat? (l : List Char) : Option ℕ :=
  if l ≠ [] ∧ l.all Char.isDigit then
    some (l.foldl (fun n c => n * 10 + (c.toNat - 48)) 0)
  else none

def isLeapYear (y : ℕ) : Bool :=
  decide (y % 4 = 0 ∧ (y % 100 ≠ 0 ∨ y % 400 = 0))

def daysInMonth (y mo : ℕ) : ℕ :=
  if mo = 2 then (if isLeapYear y then 29 else 28)
  else if mo = 4 ∨ mo = 6 ∨ mo = 9 ∨ mo = 11 then 30
  else 31

def daysBeforeMonth (y mo : ℕ) : ℕ :=
  (([31, if isLeapYear y then 29 else 28, 31, 30, 31, 30, 31, 31, 30, 31,
    30, 31] : List ℕ).take (mo - 1)).sum

/-- Python `datetime.toordinal`: day number of the proleptic Gregorian
calendar, with 0001-01-01 being day 1. -/
def toOrdinal (y mo d : ℕ) : ℕ :=
  365 * (y - 1) + (y - 1) / 4 + (y - 1) / 400 - (y - 1) / 100
    + daysBeforeMonth y mo + d

/-- Seconds of a `HH:MM:SS` combination, with the range checks Python's
datetime constructor performs. -/
def timeOfDaySeconds (hs mins ss : List Char) : Option ℕ :=
  if hs.length = 2 ∧ mins.length = 2 ∧ ss.length = 2 then
    match digitsToNat? hs, digitsToNat? mins, digitsToNat? ss with
    | some h, some mi, some sec =>
      if h < 24 ∧ mi < 60 ∧ sec < 60 then some (h * 3600 + mi * 60 + sec)
      else none
    | _, _, _ => none
  else none

/-- Model of Python's `datetime.fromisoformat` (external stdlib call of
`__make_timeframe`) for the `YYYY-MM-DD[<sep>HH[:MM[:SS]]]` forms it accepted
at the time (any single separator character), returning the instant as
seconds: `toordinal * 86400` plus the time of day (a whole number of
seconds for these forms).  Malformed input (`ValueError` in Python) is
`none`. -/
def datetime_fromisoformat (s : String) : Option ℕ :=
  let cs := s.data
  let dateCs := cs.take 10
  match splitOnFuel ['-'] dateCs.length dateCs [] with
  | [ys, ms, ds] =>
    if ys.length = 4 ∧ ms.length = 2 ∧ ds.length = 2 then
      match digitsToNat? ys, digitsToNat? ms, digitsToNat? ds with
      | some y, some mo, some d =>
        if 1 ≤ y ∧ 1 ≤ mo ∧ mo ≤ 12 ∧ 1 ≤ d ∧ d ≤ daysInMonth y mo then
          let timePart : Option ℕ :=
            match cs.drop 10 with
            | [] => some 0
            | _ :: timeCs =>
              match splitOnFuel [':'] timeCs.length timeCs [] with
              | [hs] => timeOfDaySeconds hs ['0', '0'] ['0', '0']
              | [hs, mins] => timeOfDaySeconds hs mins ['0', '0']
              | [hs, mins, ss] => timeOfDaySeconds hs mins ss
              | _ => none
          match timePart with
          | some t => some (toOrdinal y mo d * 86400 + t)
          | none => none
        else none
      | _, _, _ => none
    else none
  | _ => none

/-- Model of `pd.date_range(start, stop, freq="{step}S")`: instants
`start + k * step` on the closed interval.  A zero step is invalid in pandas
(`none`). -/
def date_range (start stop step : ℚ) : Option (List ℚ) :=
  if step = 0 then none
  else if 0 < step then
    some (if start ≤ stop then
      (List.range ((⌊(stop - start) / step⌋).toNat + 1)).map
        (fun k : ℕ => start + (k : ℚ) * step)
    else [])
  else
    some (if stop ≤ start then
      (List.range ((⌊(start - stop) / (-step)⌋).toNat + 1)).map
        (fun k : ℕ => start + (k : ℚ) * step)
    else [])

/-- `HisResults.__make_timeframe` (hisreader.py lines 124-145): split the
units string on `"since "` and take piece 1, drop `"+00:00"`, strip, parse,
then range from the parsed start to `start + max(times)` at a step of
`times[1] - times[0]` seconds.  Fewer than two time values (an `IndexError`
in the source) or an empty time array (`np.amax` raises) gives `none`. -/
def make_timeframe (units : String) (times : List ℚ) : Option (List ℚ) :=
  match (pySplit units "since ").get? 1 with
  | none => none
  | some seg =>
    match datetime_fromisoformat (pyStrip (pyReplace seg "+00:00" "")) with
    | none => none
    | some start =>
      match listMax times, times.get? 0, times.get? 1 with
      | some mx, some t0, some t1 =>
        date_range (start : ℚ) ((start : ℚ) + mx) (t1 - t0)
      | _, _, _ => none

/-- C6: for a history file whose time units parse as
`"... since <datetime>[+00:00]"` and whose time values have a positive first
step `d` that divides the maximum value, the constructed time index starts at
the parsed datetime `s0`, steps uniformly by `d` seconds, and ends at
`s0 + max(times)`. -/
theorem c6_hisreader_timeframe (units : String) (times : List ℚ)
    (seg : String) (s0 : ℕ) (t0 t1 mx : ℚ) (k : ℕ)
    (hsplit : (pySplit units "since ").get? 1 = some seg)
    (hparse : datetime_fromisoformat (pyStrip (pyReplace seg "+00:00" ""))
      = some s0)
    (hmax : listMax times = some mx)
    (ht0 : times.get? 0 = some t0)
    (ht1 : times.get? 1 = some t1)
    (hdpos : 0 < t1 - t0)
    (hk : mx = k * (t1 - t0)) :
    make_timeframe units times
      = some ((List.range (k + 1)).map
          (fun i : ℕ => (s0 : ℚ) + (i : ℚ) * (t1 - t0)))
    ∧ ((List.range (k + 1)).map
        (fun i : ℕ => (s0 : ℚ) + (i : ℚ) * (t1 - t0))).head?
        = some (s0 : ℚ)
    ∧ ((List.range (k + 1)).map
        (fun i : ℕ => (s0 : ℚ) + (i : ℚ) * (t1 - t0))).getLast?
        = some ((s0 : ℚ) + mx) := by
  refine ⟨?_, ?_, ?_⟩
  · simp only [make_timeframe, hsplit, hparse, hmax, ht0, ht1]
    rw [date_range, if_neg (ne_of_gt hdpos), if_pos hdpos]
    have hle : (s0 : ℚ) ≤ (s0 : ℚ) + mx := by
      have : (0 : ℚ) ≤ mx := hk ▸ mul_nonneg (Nat.cast_nonneg k) (le_of_lt hdpos)
      linarith
    rw [if_pos hle]
    have hq : ((s0 : ℚ) + mx - (s0 : ℚ)) / (t1 - t0) = (k : ℚ) := by
      rw [add_sub_cancel_left, hk]
      field_simp
    rw [hq, Int.floor_natCast, Int.toNat_natCast]
  · rw [List.range_succ_eq_map, List.map_cons, List.head?_cons]
    norm_num
  · rw [List.range_succ, List.map_append, List.map_singleton,
      List.getLast?_concat, hk]

/-- C6 witness, the instance named by the claim: units
`"seconds since 2020-01-01 00:00:00"` with values `[0, 3600, 7200]` yield
the three hourly instants `2020-01-01 00:00`, `01:00`, `02:00`
(`63713520000`, `63713523600`, `63713527200` seconds on the ordinal axis,
i.e. `737425 * 86400 + 3600 * h`). -/
theorem c6_hisreader_timeframe_witness :
    ((pySplit "seconds since 2020-01-01 00:00:00" "since ").get? 1
        = some "2020-01-01 00:00:00"
      ∧ datetime_fromisoformat
          (pyStrip (pyReplace "2020-01-01 00:00:00" "+00:00" ""))
        = some (63713520000 : ℕ)
      ∧ listMax ([0, 3600, 7200] : List ℚ) = some 7200
      ∧ (0 : ℚ) < 3600 - 0
      ∧ (7200 : ℚ) = 2 * (3600 - 0))
    ∧ (make_timeframe "seconds since 2020-01-01 00:00:00" [0, 3600, 7200]
        = some ((List.range (2 + 1)).map
            (fun i : ℕ => ((63713520000 : ℕ) : ℚ) + (i : ℚ) * ((3600 : ℚ) - 0)))
      ∧ ((List.range (2 + 1)).map
          (fun i : ℕ => ((63713520000 : ℕ) : ℚ) + (i : ℚ) * (3600 - 0))).head?
          = some ((63713520000 : ℕ) : ℚ)
      ∧ ((List.range (2 + 1)).map
          (fun i : ℕ => ((63713520000 : ℕ) : ℚ) + (i : ℚ) * (3600 - 0))).getLast?
          = some (((63713520000 : ℕ) : ℚ) + 7200)) :=
  ⟨⟨by decide, by decide, by decide, by norm_num, by norm_num⟩,
    c6_hisreader_timeframe "seconds since 2020-01-01 00:00:00" [0, 3600, 7200]
      "2020-01-01 00:00:00" 63713520000 0 3600 7200 2 (by decide) (by decide)
      (by decide) (by decide) (by decide) (by norm_num) (by norm_num)⟩

/-! ## `contrib/Arcadis/scripts/export_statistics.py` — `statistics_dhydro`

Two parts are embedded: the date-range guard (lines 96-109) and the
statistics-mode selection with the geometry merge (lines 130-137).  The
dataframe produced by `read_nc_data` is a table with a time index and one
column per feature; the geometry layer from `net_nc2gdf` is a table of
`(id, geometry)` rows. -/

/-- A raised Python error, by class. `raise` applied to a value that is not
an exception (such as the plain strings this script passes) produces a
`TypeError`. -/
inductive PyErr : Type where
  | typeError (msg : String) : PyErr
  | invalidInput (msg : String) : PyErr
  | valueError (msg : String) : PyErr
deriving Repr, DecidableEq

/-- Minimum of a list, `none` on the empty list (Python `min` raises). -/
def listMin {α : Type} [LinearOrder α] : List α → Option α
  | [] => none
  | a :: l => some (l.foldl min a)

/-- `datetime.strptime(s, "%Y/%m/%d")`, as the number of seconds (midnight)
on the `toordinal` axis; also the model of the value pandas coerces the same
string to when comparing it against a `Timestamp`.  Malformed input is
`none`. -/
def strptimeYMD (s : String) : Option ℕ :=
  match splitOnFuel ['/'] s.data.length s.data [] with
  | [ys, ms, ds] =>
    match digitsToNat? ys, digitsToNat? ms, digitsToNat? ds with
    | some y, some mo, some d =>
      if 1 ≤ y ∧ 1 ≤ mo ∧ mo ≤ 12 ∧ 1 ≤ d ∧ d ≤ daysInMonth y mo then
        some (toOrdinal y mo d * 86400)
      else none
    | _, _, _ => none
  | _ => none

/-- Date filter of `statistics_dhydro` (export_statistics.py lines 96-109):
`sdata`/`edata` are the min/max of the time index; a non-empty `sdate` later
than `edata` (or a non-empty `edate` earlier than `sdata`) hits a
`raise "<text>"` statement, which in Python 3 raises
`TypeError: exceptions must derive from BaseException` — not the intended
`InvalidInput` — otherwise the rows are filtered to `index >= sdate`
(resp. `index <= edate`).  Time index entries are seconds on the `toordinal`
axis. -/
def statistics_filter_dates {α : Type} (sdate edate : String)
    (df : List (ℕ × α)) : Except PyErr (List (ℕ × α)) :=
  match listMin (df.map Prod.fst), listMax (df.map Prod.fst) with
  | some sdata, some edata =>
    let step1 : Except PyErr (List (ℕ × α)) :=
      if sdate ≠ "" then
        match strptimeYMD sdate with
        | none => .error (.typeError "Cannot compare Timestamp with string")
        | some sd =>
          if sd > edata then
            .error (.typeError "exceptions must derive from BaseException")
          else .ok (df.filter (fun r => decide (sd ≤ r.1)))
      else .ok df
    match step1 with
    | .error e => .error e
    | .ok df1 =>
      if edate ≠ "" then
        match strptimeYMD edate with
        | none => .error (.typeError "Cannot compare Timestamp with string")
        | some ed =>
          if ed < sdata then
            .error (.typeError "exceptions must derive from BaseException")
          else .ok (df1.filter (fun r => decide (r.1 ≤ ed)))
      else .ok df1
  | _, _ => .error (.valueError "empty sequence")

/-- pandas `Series.quantile(0.5)` with the default linear interpolation, the
`50%` entry of `describe`. -/
def medianQ (xs : List ℚ) : ℚ :=
  let sorted := sortValues (fun a b => decide (a ≤ b)) xs
  let n := sorted.length
  if n = 0 then 0
  else if n % 2 = 1 then sorted.getD (n / 2) 0
  else (sorted.getD (n / 2 - 1) 0 + sorted.getD (n / 2) 0) / 2

/-- pandas `Series.describe(percentiles=[0.5])` for one numeric column:
count, mean, std, min, 50% (median), max.  The sample standard deviation
goes through the external float square root `sqrtF`; on an empty column
pandas emits NaNs (never reached here: the theorems assume non-empty
series, and the `getD 0` defaults are then irrelevant). -/
def describe_p50 (sqrtF : ℚ → ℚ) (xs : List ℚ) : List (String × ℚ) :=
  let n : ℚ := xs.length
  let mean := xs.sum / n
  let varSample := (xs.map (fun x => (x - mean) ^ 2)).sum / (n - 1)
  [("count", n), ("mean", mean), ("std", sqrtF varSample),
   ("min", (listMin xs).getD 0), ("50%", medianQ xs),
   ("max", (listMax xs).getD 0)]

/-- One row of the geometry layer returned by `net_nc2gdf`. -/
structure GeomRow where
  id : String
  geometry : ℚ × ℚ
deriving Repr, DecidableEq

/-- One row of the merged result: feature id, geometry, and the statistic
columns appended by the merge. -/
structure StatRow where
  id : String
  geometry : ℚ × ℚ
  stats : List (String × ℚ)
deriving Repr, DecidableEq

/-- `gdf.merge(df_stat, left_on="id", right_index=True)` (inner join on the
feature id, left order preserved). -/
def gdf_merge (gdf : List GeomRow) (df_stat : List (String × List (String × ℚ))) :
    List StatRow :=
  gdf.flatMap fun g =>
    (df_stat.filter (fun p => p.1 = g.id)).map fun p =>
      { id := g.id, geometry := g.geometry, stats := p.2 }

/-- Statistics-mode selection of `statistics_dhydro` (export_statistics.py
lines 130-137): `stat=""` merges the transposed
`df.describe(percentiles=[0.5])` onto the geometry layer; `stat="max"`
merges the single-column `pd.DataFrame(df.max(), columns=["max"])`; any
other value leaves the geometry layer unmerged. -/
def statistics_dhydro_stats (sqrtF : ℚ → ℚ) (stat : String)
    (df : List (String × List ℚ)) (gdf : List GeomRow) : List StatRow :=
  if stat = "" then
    gdf_merge gdf (df.map (fun p => (p.1, describe_p50 sqrtF p.2)))
  else if stat = "max" then
    gdf_merge gdf (df.map (fun p => (p.1, [("max", (listMax p.2).getD 0)])))
  else
    gdf.map fun g => { id := g.id, geometry := g.geometry, stats := [] }

/-- C8: with `stat=""`, every row of the result carries a `50%` (median)
column holding the median of that feature's time series, coming from the
full descriptive summary; with `stat="max"`, every row carries exactly one
statistic column, named `max`, holding the maximum of that feature's time
series. -/
theorem c8_statistics_modes (sqrtF : ℚ → ℚ) (df : List (String × List ℚ))
    (gdf : List GeomRow) (hne : ∀ p ∈ df, p.2 ≠ []) :
    (∀ row ∈ statistics_dhydro_stats sqrtF "" df gdf,
      ∃ ser, (row.id, ser) ∈ df ∧ row.stats.lookup "50%" = some (medianQ ser))
    ∧ (∀ row ∈ statistics_dhydro_stats sqrtF "max" df gdf,
      ∃ ser mx, (row.id, ser) ∈ df ∧ listMax ser = some mx
        ∧ row.stats = [("max", mx)]) := by
  constructor
  · intro row hrow
    unfold statistics_dhydro_stats gdf_merge at hrow
    rw [if_pos rfl] at hrow
    rcases List.mem_flatMap.mp hrow with ⟨g, _, hp⟩
    rcases List.mem_map.mp hp with ⟨p, hpmem, rfl⟩
    rcases List.mem_filter.mp hpmem with ⟨hpdf, hpid⟩
    rcases List.mem_map.mp hpdf with ⟨q, hq, rfl⟩
    refine ⟨q.2, ?_, ?_⟩
    · have : q.1 = g.id := by simpa using hpid
      have hq' : (q.1, q.2) ∈ df := by simpa using hq
      simpa [this] using hq'
    · simp [describe_p50, List.lookup]
  · intro row hrow
    have hs : ¬ ("max" : String) = "" := by decide
    unfold statistics_dhydro_stats gdf_merge at hrow
    rw [if_neg hs, if_pos rfl] at hrow
    rcases List.mem_flatMap.mp hrow with ⟨g, _, hp⟩
    rcases List.mem_map.mp hp with ⟨p, hpmem, rfl⟩
    rcases List.mem_filter.mp hpmem with ⟨hpdf, hpid⟩
    rcases List.mem_map.mp hpdf with ⟨q, hq, rfl⟩
    have hq' : (q.1, q.2) ∈ df := by simpa using hq
    have hqne : q.2 ≠ [] := hne _ hq'
    cases hser : q.2 with
    | nil => exact absurd hser hqne
    | cons a t =>
      refine ⟨q.2, t.foldl max a, ?_, ?_, ?_⟩
      · have : q.1 = g.id := by simpa using hpid
        simpa [this] using hq'
      · rw [hser]; rfl
      · simp [hser, listMax]

/-- Concrete data for the C8 witness: two features with known series. -/
def exDfC8 : List (String × List ℚ) :=
  [("n1", [1, 5, 3]), ("n2", [2, 4, 6, 0])]

def exGdfC8 : List GeomRow :=
  [{ id := "n1", geometry := (0, 0) }, { id := "n2", geometry := (1, 1) }]

theorem c8_statistics_witness :
    (∀ p ∈ exDfC8, p.2 ≠ [])
    ∧ ((∀ row ∈ statistics_dhydro_stats (fun _ => 0) "" exDfC8 exGdfC8,
        ∃ ser, (row.id, ser) ∈ exDfC8
          ∧ row.stats.lookup "50%" = some (medianQ ser))
      ∧ (∀ row ∈ statistics_dhydro_stats (fun _ => 0) "max" exDfC8 exGdfC8,
        ∃ ser mx, (row.id, ser) ∈ exDfC8 ∧ listMax ser = some mx
          ∧ row.stats = [("max", mx)])) :=
  ⟨by decide,
    c8_statistics_modes (fun _ => 0) exDfC8 exGdfC8 (by decide)⟩

/-- Time index for the C9 failing input: two timestamps in January 2020
(`toordinal` seconds of 2020-01-01 and 2020-01-02). -/
def exDfC9 : List (ℕ × ℚ) :=
  [(63713520000, 1), (63713606400, 2)]

/-- C9: evaluating the date guard at the failing input — `sdate` of
`2100/01/01`, later than the last timestamp in the data — the script
executes `raise "start date later then end date in model results"`, which
raises a `TypeError` (a plain string is not an exception); no
`InvalidInput`-class error carrying the intended message is raised. -/
theorem c9_date_guard_raises_typeerror :
    statistics_filter_dates "2100/01/01" "" exDfC9
      = .error (.typeError "exceptions must derive from BaseException")
    ∧ ∀ msg, statistics_filter_dates "2100/01/01" "" exDfC9
        ≠ .error (.invalidInput msg) := by
  have heval : statistics_filter_dates "2100/01/01" "" exDfC9
      = .error (.typeError "exceptions must derive from BaseException") := by
    rfl
  refine ⟨heval, ?_⟩
  intro msg h
  rw [heval] at h
  simp at h

/-! ## `contrib/Arcadis/scripts/change_friction_channels.py` — `change_friction_shape`

The embedding covers the per-friction-file loop body for a file with
per-branch records, in the default (`wipe=False`) output mode
(change_friction_channels.py lines 96-123 and 140-152).  Loading the model
(`friction2dict`), the branch layer, and the spatial join
(`gpd.sjoin_nearest` with the 10-unit buffer) are external; their outputs —
the file's per-branch records and the join result table — are inputs here. -/

/-- A pandas cell as the script sees it: a float, an int, a list of floats,
or a null.  (`isinstance(x, float)` / `isinstance(x, int)` drive the
coercions at lines 117-123; a pandas NaN is out of the claim's path and is
modelled as `pnone`, left untouched.) -/
inductive PyCell : Type where
  | pfloat (q : ℚ) : PyCell
  | pint (z : ℤ) : PyCell
  | plist (l : List ℚ) : PyCell
  | pnone : PyCell
deriving Repr, DecidableEq

/-- A per-branch record of one friction file (`FrictionModel.branch`). -/
structure FrictRecord where
  branchid : String
  frictiontype : String
  frictionvalues : PyCell
  numlocations : PyCell
  chainage : PyCell
deriving Repr, DecidableEq

/-- A row of the spatial-join result `intersect` (the branch layer joined to
the nearest friction-shape feature within the 10-unit buffer), after the
`id → branchid` rename: the branch id and the shapefile's `fricval`. -/
structure IntersectRow where
  branchid : String
  fricval : ℚ
deriving Repr, DecidableEq

/-- The `isin` flagging step (lines 99-104): each spatial-join row paired
with whether its branch id occurs in this friction file's per-branch
records. -/
def frict_flagged (records : List FrictRecord) (intersect : List IntersectRow) :
    List (IntersectRow × Bool) :=
  intersect.map (fun i => (i, records.any (fun r => r.branchid = i.branchid)))

/-- The rows the pandas left-merge on `branchid` (line 107) produces for one
friction record: one row per matching flagged join row, or a single row with
a null right side when nothing matches. -/
def frict_merge_rows (flagged : List (IntersectRow × Bool)) (r : FrictRecord) :
    List (FrictRecord × Option (IntersectRow × Bool)) :=
  let hits := flagged.filter (fun im => im.1.branchid = r.branchid)
  if hits.isEmpty then [(r, none)]
  else hits.map (fun im => (r, some im))

/-- The overwrite on rows whose `result` flag is `True` (lines 109-115):
`frictionvalues` becomes the shapefile's `fricval`, `numlocations` becomes
`1` and `chainage` becomes `0`; rows with a false or null flag are left
alone. -/
def frict_overwrite (rm : FrictRecord × Option (IntersectRow × Bool)) :
    FrictRecord :=
  match rm.2 with
  | some (im, true) =>
    { rm.1 with
      frictionvalues := .pfloat im.fricval
      numlocations := .pint 1
      chainage := .pint 0 }
  | _ => rm.1

/-- The list coercions (lines 117-123): a float `frictionvalues` cell and an
int `chainage` cell become single-element lists. -/
def frict_coerce (r : FrictRecord) : FrictRecord :=
  { r with
    frictionvalues :=
      match r.frictionvalues with
      | .pfloat x => .plist [x]
      | v => v
    chainage :=
      match r.chainage with
      | .pint x => .plist [(x : ℚ)]
      | v => v }

/-- Loop body of `change_friction_shape` for one friction file with
per-branch records, `wipe=False` (lines 99-123 and 140-152): flag, merge,
overwrite, coerce; the join-side columns are then dropped. -/
def change_friction_branch_records (records : List FrictRecord)
    (intersect : List IntersectRow) : List FrictRecord :=
  let in_model := frict_flagged records intersect
  let merge := records.flatMap (frict_merge_rows in_model)
  (merge.map frict_overwrite).map frict_coerce

/-- The file written for friction id `key` in the `wipe=False` branch:
`roughness-<key>.ini`, holding the file's global records (unchanged, not
modelled) and the merged per-branch records.  The hydrolib-core
`FrictionModel` save/parse round trip is external and modelled as the
identity on records, so re-reading the file yields exactly these records. -/
def change_friction_shape_written (key : String)
    (records : List FrictRecord) (intersect : List IntersectRow) :
    String × List FrictRecord :=
  ("roughness-" ++ key ++ ".ini", change_friction_branch_records records intersect)

/-- All rows a record contributes to the merge keep that record's branch
id. -/
def frict_segment (flagged : List (IntersectRow × Bool)) (r : FrictRecord) :
    List FrictRecord :=
  ((frict_merge_rows flagged r).map frict_overwrite).map frict_coerce

theorem filter_flatMap {α β : Type} (l : List α) (f : α → List β) (p : β → Bool) :
    (l.flatMap f).filter p = l.flatMap (fun x => (f x).filter p) := by
  induction l with
  | nil => rfl
  | cons a t ih => simp only [List.flatMap_cons, List.filter_append, ih]

theorem flatMap_eq_filter_flatMap {α β : Type} (l : List α) (seg : α → List β)
    (p : α → Bool) (h : ∀ x ∈ l, p x = false → seg x = []) :
    l.flatMap seg = (l.filter p).flatMap seg := by
  induction l with
  | nil => rfl
  | cons a t ih =>
    have ht := ih (fun x hx => h x (List.mem_cons_of_mem a hx))
    cases hp : p a with
    | true => simp only [List.flatMap_cons, List.filter_cons, hp, if_true, ht]
    | false =>
      rw [List.flatMap_cons, List.filter_cons, hp,
        h a (List.mem_cons_self a t) hp]
      simp [ht]

theorem frict_segment_branchid (flagged : List (IntersectRow × Bool))
    (r : FrictRecord) : ∀ x ∈ frict_segment flagged r,
    x.branchid = r.branchid := by
  intro x hx
  rcases List.mem_map.mp hx with ⟨y, hy, rfl⟩
  rcases List.mem_map.mp hy with ⟨rm, hrm, rfl⟩
  have hfst : rm.1 = r := by
    unfold frict_merge_rows at hrm
    by_cases hempty : (flagged.filter
        (fun im => im.1.branchid = r.branchid)).isEmpty
    · rw [if_pos hempty] at hrm
      rcases List.mem_singleton.mp hrm with rfl
      rfl
    · rw [if_neg hempty] at hrm
      rcases List.mem_map.mp hrm with ⟨im, _, rfl⟩
      rfl
  rcases rm with ⟨rr, mo⟩
  simp only at hfst
  subst hfst
  rcases mo with _ | ⟨im, fl⟩
  · rfl
  · cases fl <;> rfl

/-- Restatement of the merge pipeline as one pass over the records. -/
theorem change_friction_branch_records_eq (records : List FrictRecord)
    (intersect : List IntersectRow) :
    change_friction_branch_records records intersect
      = records.flatMap (frict_segment (frict_flagged records intersect)) := by
  simp only [change_friction_branch_records, frict_segment]
  rw [List.map_flatMap, List.map_flatMap]
  rfl

/-- C7: for a branch `b` that is matched by the overlay — it has exactly one
per-branch record in the friction file and exactly one spatial-join row,
carrying the shapefile value `V` — the written (and, via the external
round-tripping writer, re-read) `roughness-<key>.ini` file holds exactly one
record for `b`, with `frictionvalues = [V]`, `numlocations = 1` and
`chainage = [0]`. -/
theorem c7_change_friction_overwrites_matched (key : String)
    (records : List FrictRecord) (intersect : List IntersectRow)
    (b : String) (V : ℚ) (r0 : FrictRecord)
    (hrec : records.filter (fun r => r.branchid = b) = [r0])
    (hint : intersect.filter (fun i => i.branchid = b) = [⟨b, V⟩]) :
    (change_friction_shape_written key records intersect).1
      = "roughness-" ++ key ++ ".ini"
    ∧ ((change_friction_shape_written key records intersect).2.filter
        (fun r => r.branchid = b))
      = [{ branchid := r0.branchid
           frictiontype := r0.frictiontype
           frictionvalues := .plist [V]
           numlocations := .pint 1
           chainage := .plist [(0 : ℚ)] }] := by
  have hr0mem : r0 ∈ records := by
    have : r0 ∈ records.filter (fun r => r.branchid = b) := by
      rw [hrec]; exact List.mem_singleton.mpr rfl
    exact List.mem_of_mem_filter this
  have hr0b : r0.branchid = b := by
    have : r0 ∈ records.filter (fun r => r.branchid = b) := by
      rw [hrec]; exact List.mem_singleton.mpr rfl
    simpa using List.of_mem_filter this
  refine ⟨rfl, ?_⟩
  show (change_friction_branch_records records intersect).filter
    (fun r => r.branchid = b) = _
  rw [change_friction_branch_records_eq, filter_flatMap]
  have hdead : ∀ r ∈ records, (decide (r.branchid = b)) = false →
      (frict_segment (frict_flagged records intersect) r).filter
        (fun x => x.branchid = b) = [] := by
    intro r _ hr
    refine List.filter_eq_nil_iff.mpr ?_
    intro x hx
    have hxr := frict_segment_branchid _ r x hx
    simp only [decide_eq_false_iff_not] at hr
    simp [hxr, hr]
  rw [flatMap_eq_filter_flatMap records _ (fun r => r.branchid = b) hdead,
    hrec]
  have hflt : (frict_flagged records intersect).filter
      (fun im => im.1.branchid = r0.branchid) = [(⟨b, V⟩, true)] := by
    unfold frict_flagged
    rw [hr0b, List.filter_map]
    have hcong : intersect.filter
        ((fun im : IntersectRow × Bool => decide (im.1.branchid = b)) ∘
          (fun i => (i, records.any (fun r => r.branchid = i.branchid))))
        = intersect.filter (fun i => i.branchid = b) := rfl
    rw [hcong, hint]
    have hany : records.any
        (fun r => r.branchid = ({ branchid := b, fricval := V } :
          IntersectRow).branchid) = true :=
      List.any_eq_true.mpr ⟨r0, hr0mem, by simp [hr0b]⟩
    simp [hany]
  have hseg : frict_segment (frict_flagged records intersect) r0
      = [{ branchid := r0.branchid
           frictiontype := r0.frictiontype
           frictionvalues := .plist [V]
           numlocations := .pint 1
           chainage := .plist [(0 : ℚ)] }] := by
    unfold frict_segment frict_merge_rows
    rw [hflt]
    rw [if_neg (by simp)]
    rfl
  simp [hseg, hr0b]

/-- Concrete data for the C7 witness: one friction file with two branch
records and a join table matching branch `B1` to a shapefile value 7. -/
def exRecordsC7 : List FrictRecord :=
  [{ branchid := "B1", frictiontype := "Manning",
     frictionvalues := .plist [23, 25], numlocations := .pint 2,
     chainage := .plist [0, 100] },
   { branchid := "B2", frictiontype := "Manning",
     frictionvalues := .plist [3], numlocations := .pint 1,
     chainage := .plist [0] }]

def exIntersectC7 : List IntersectRow :=
  [{ branchid := "B1", fricval := 7 }]

theorem c7_change_friction_witness :
    (exRecordsC7.filter (fun r => r.branchid = "B1")
        = [{ branchid := "B1", frictiontype := "Manning",
             frictionvalues := .plist [23, 25], numlocations := .pint 2,
             chainage := .plist [0, 100] }]
      ∧ exIntersectC7.filter (fun i => i.branchid = "B1")
        = [⟨"B1", 7⟩])
    ∧ ((change_friction_shape_written "channels" exRecordsC7 exIntersectC7).1
        = "roughness-" ++ "channels" ++ ".ini"
      ∧ ((change_friction_shape_written "channels" exRecordsC7
          exIntersectC7).2.filter (fun r => r.branchid = "B1"))
        = [{ branchid := "B1"
             frictiontype := "Manning"
             frictionvalues := .plist [7]
             numlocations := .pint 1
             chainage := .plist [(0 : ℚ)] }]) :=
  ⟨⟨by decide, by decide⟩,
    c7_change_friction_overwrites_matched "channels" exRecordsC7 exIntersectC7
      "B1" 7
      { branchid := "B1", frictiontype := "Manning",
        frictionvalues := .plist [23, 25], numlocations := .pint 2,
        chainage := .plist [0, 100] }
      (by decide) (by decide)⟩

/-! ## `workflows/crosssections.py` — `xyzp2xyzl` and `set_xyz_crosssections`

`xyzp2xyzl` (lines 809-861) sorts one cross-section's survey points by the
`sort_by` columns (defaulting to `["x", "y"]`), builds a shapely `LineString`
from the sorted `(x, y)` pairs and the cumulative arc-length array `l`.
`set_xyz_crosssections` (line 254) applies it per `crsId` group as
`crosssections.groupby(level=0).apply(xyzp2xyzl, (["order"]))`: pandas
forwards the extra positional argument to the function, so the groups are
converted with `sort_by = ["order"]`. -/

/-- One survey point of an xyz cross-section group, after the column
preparation of `set_xyz_crosssections` lines 247-251 (`x`/`y` from the
geometry, `order` cast to int). -/
structure XyzPoint where
  crsId : String
  x : ℚ
  y : ℚ
  z : ℚ
  order : ℤ
deriving Repr, DecidableEq

/-- Value of a named (lower-cased) column of the points table. -/
def xyzColumn (p : XyzPoint) (c : String) : ℚ :=
  if c = "x" then p.x
  else if c = "y" then p.y
  else if c = "z" then p.z
  else if c = "order" then (p.order : ℚ)
  else 0

/-- Lexicographic multi-column comparison used by
`DataFrame.sort_values(by=sort_by)`. -/
def xyzLe (keys : List String) (p q : XyzPoint) : Bool :=
  match keys with
  | [] => true
  | k :: ks =>
    if xyzColumn p k < xyzColumn q k then true
    else if xyzColumn q k < xyzColumn p k then false
    else xyzLe ks p q

/-- ASCII lower-casing of a character (Python `str.lower` on the column
names the embedded code uses). -/
def charLower (c : Char) : Char :=
  if 'A' ≤ c ∧ c ≤ 'Z' then Char.ofNat (c.toNat + 32) else c

def pyLower (s : String) : String :=
  { data := s.data.map charLower }

/-- The series `xyzp2xyzl` returns for one group: the polyline coordinates,
the cumulative arc lengths `l`, the group's id (`index`), and the sorted
coordinate columns. -/
structure XyzLine where
  line : List (ℚ × ℚ)
  l : List ℚ
  index : String
  x : List ℚ
  y : List ℚ
  z : List ℚ
deriving Repr, DecidableEq

/-- `np.r_[0.0, np.cumsum(np.hypot(np.diff(...)))]`: 0 followed by the
running sums of the segment lengths (`hypotF` is the external
`np.hypot`). -/
def cumLengthsFrom (hypotF : ℚ → ℚ → ℚ) (acc : ℚ) :
    (ℚ × ℚ) → List (ℚ × ℚ) → List ℚ
  | _, [] => []
  | p, q :: rest =>
    let acc' := acc + hypotF (q.1 - p.1) (q.2 - p.2)
    acc' :: cumLengthsFrom hypotF acc' q rest

def cumLengths (hypotF : ℚ → ℚ → ℚ) : List (ℚ × ℚ) → List ℚ
  | [] => [0]
  | p :: rest => 0 :: cumLengthsFrom hypotF 0 p rest

/-- `xyzp2xyzl` (crosssections.py lines 809-861).  The `sort_by` column names
are lower-cased, the points are sorted by them, and the sorted `(x, y)`
pairs become the polyline (`np.hypot` is the `hypotF` parameter).  A group
of fewer than two points is `none`: shapely's `LineString` constructor
rejects it (and `yz_index.to_list()[0]` would fail on an empty group). -/
def xyzp2xyzl (hypotF : ℚ → ℚ → ℚ) (xyz : List XyzPoint)
    (sort_by : List String := ["x", "y"]) : Option XyzLine :=
  let keys := sort_by.map pyLower
  match xyz with
  | [] => none
  | [_] => none
  | p0 :: ps =>
    let xyz_sorted := sortValues (xyzLe keys) (p0 :: ps)
    let coords := xyz_sorted.map (fun p => (p.x, p.y))
    some
      { line := coords
        l := cumLengths hypotF coords
        index := p0.crsId
        x := xyz_sorted.map (fun p => p.x)
        y := xyz_sorted.map (fun p => p.y)
        z := xyz_sorted.map (fun p => p.z) }

/-- The per-group polyline conversion performed by `set_xyz_crosssections`
(crosssections.py line 254): `groupby(level=0).apply(xyzp2xyzl, (["order"]))`
passes `["order"]` as the `sort_by` argument. -/
def set_xyz_crosssections_polyline (hypotF : ℚ → ℚ → ℚ)
    (group : List XyzPoint) : Option XyzLine :=
  xyzp2xyzl hypotF group ["order"]

/-- Two survey points of one group whose spatial order and explicit `order`
column disagree: the point at `x = 1` has `order = 1`, the point at `x = 0`
has `order = 2`. -/
def exPtsC1 : List XyzPoint :=
  [{ crsId := "crs1", x := 0, y := 0, z := 5, order := 2 },
   { crsId := "crs1", x := 1, y := 0, z := 6, order := 1 }]

/-- C1, counterexample: on `exPtsC1` the polyline built by
`set_xyz_crosssections` is `[(1,0), (0,0)]` — the points ordered by the
`order` column — which is not ordered by the spatial `(x, y)` coordinates,
refuting the claim as stated. -/
theorem c1_counterexample_not_sorted_by_xy :
    ((set_xyz_crosssections_polyline (fun _ _ => 0) exPtsC1).map XyzLine.line)
      = some [(1, 0), (0, 0)]
    ∧ ¬ List.Pairwise
        (fun a b : ℚ × ℚ => a.1 < b.1 ∨ (a.1 = b.1 ∧ a.2 ≤ b.2))
        [((1 : ℚ), (0 : ℚ)), (0, 0)] := by
  constructor
  · rfl
  · decide

theorem xyzLe_order_iff (p q : XyzPoint) :
    xyzLe ["order"] p q = true ↔ p.order ≤ q.order := by
  show (if xyzColumn p "order" < xyzColumn q "order" then true
    else if xyzColumn q "order" < xyzColumn p "order" then false
    else xyzLe [] p q) = true ↔ p.order ≤ q.order
  have hp : xyzColumn p "order" = (p.order : ℚ) := rfl
  have hq : xyzColumn q "order" = (q.order : ℚ) := rfl
  rw [hp, hq]
  by_cases h1 : (p.order : ℚ) < (q.order : ℚ)
  · simp only [h1, if_true, true_iff]
    exact_mod_cast le_of_lt h1
  · rw [if_neg h1]
    by_cases h2 : (q.order : ℚ) < (p.order : ℚ)
    · rw [if_pos h2]
      have h2' : q.order < p.order := by exact_mod_cast h2
      simp only [Bool.false_eq_true, false_iff, not_le]
      exact h2'
    · rw [if_neg h2]
      simp only [xyzLe, true_iff]
      have : (p.order : ℚ) ≤ (q.order : ℚ) := le_of_not_lt h2
      exact_mod_cast this

/-- C1, amended: the points of each group are joined in the order of the
explicit `order` column — `set_xyz_crosssections` passes `["order"]` as
`sort_by` to `xyzp2xyzl`, overriding its `["x", "y"]` default — i.e. the
polyline is the `(x, y)` pairs of a permutation of the group that is
non-decreasing in `order`; the `["x", "y"]` spatial default applies only
when no `sort_by` is passed. -/
theorem c1_set_xyz_sorts_by_order_column (hypotF : ℚ → ℚ → ℚ)
    (pts : List XyzPoint) (res : XyzLine)
    (h : set_xyz_crosssections_polyline hypotF pts = some res) :
    res.line = (sortValues (xyzLe ["order"]) pts).map (fun p => (p.x, p.y))
    ∧ List.Perm (sortValues (xyzLe ["order"]) pts) pts
    ∧ List.Pairwise (fun p q : XyzPoint => p.order ≤ q.order)
        (sortValues (xyzLe ["order"]) pts)
    ∧ ∀ res', xyzp2xyzl hypotF pts = some res' →
        res'.line = (sortValues (xyzLe ["x", "y"]) pts).map
          (fun p => (p.x, p.y)) := by
  have hkeys : (["order"].map pyLower) = ["order"] := rfl
  have hkeysxy : (["x", "y"].map pyLower) = ["x", "y"] := rfl
  refine ⟨?_, sortValues_perm _ pts, ?_, ?_⟩
  · unfold set_xyz_crosssections_polyline xyzp2xyzl at h
    rw [hkeys] at h
    match pts, h with
    | p0 :: p1 :: ps, h =>
      have := (Option.some_inj.mp h).symm
      rw [this]
  · have hpw := sortValues_pairwise (xyzLe ["order"])
      (fun x y => by
        rcases le_total x.order y.order with h' | h'
        · exact Or.inl ((xyzLe_order_iff x y).mpr h')
        · exact Or.inr ((xyzLe_order_iff y x).mpr h'))
      (fun x y z hxy hyz => (xyzLe_order_iff x z).mpr
        (le_trans ((xyzLe_order_iff x y).mp hxy) ((xyzLe_order_iff y z).mp hyz)))
      pts
    exact hpw.imp (fun hxy => (xyzLe_order_iff _ _).mp hxy)
  · intro res' h'
    unfold xyzp2xyzl at h'
    rw [hkeysxy] at h'
    unfold set_xyz_crosssections_polyline xyzp2xyzl at h
    match pts, h, h' with
    | p0 :: p1 :: ps, _, h' =>
      have := (Option.some_inj.mp h').symm
      rw [this]

/-- Concrete result of the grouping step on `exPtsC1` with a zero `hypot`
stand-in, for the C1 witness. -/
def exLineC1 : XyzLine :=
  { line := [(1, 0), (0, 0)]
    l := [0, 0]
    index := "crs1"
    x := [1, 0]
    y := [0, 0]
    z := [6, 5] }

theorem c1_set_xyz_sorts_by_order_witness :
    set_xyz_crosssections_polyline (fun _ _ => 0) exPtsC1 = some exLineC1
    ∧ (exLineC1.line
        = (sortValues (xyzLe ["order"]) exPtsC1).map (fun p => (p.x, p.y))
      ∧ List.Perm (sortValues (xyzLe ["order"]) exPtsC1) exPtsC1
      ∧ List.Pairwise (fun p q : XyzPoint => p.order ≤ q.order)
          (sortValues (xyzLe ["order"]) exPtsC1)
      ∧ ∀ res', xyzp2xyzl (fun _ _ => 0) exPtsC1 = some res' →
          res'.line = (sortValues (xyzLe ["x", "y"]) exPtsC1).map
            (fun p => (p.x, p.y))) :=
  have h : set_xyz_crosssections_polyline (fun _ _ => 0) exPtsC1
      = some exLineC1 := by
    have hkeys : (["order"].map pyLower) = ["order"] := rfl
    unfold set_xyz_crosssections_polyline xyzp2xyzl
    simp +decide only [hkeys, exPtsC1, exLineC1, Option.some_inj,
      XyzLine.mk.injEq, sortValues, insertSorted, xyzLe, xyzColumn,
      cumLengths, cumLengthsFrom, List.map]
    norm_num
  ⟨h, c1_set_xyz_sorts_by_order_column (fun _ _ => 0) exPtsC1 exLineC1 h⟩

/-! ## `workflows/crosssections.py` — `set_branch_crosssections` with `midpoint=False`

The `else` branch of `set_branch_crosssections` (lines 140-216): build an
upstream and a downstream location row per branch — both rows' geometry is
`Point(l.coords[0])`, the FIRST coordinate of the branch line (lines 144 and
163) — then, for the rows whose shape is `"circle"` (the only shape this
branch supports), derive the `circ_d{:,.3f}_branch` definition id, run
`_set_circle_crs` (locations merged with definitions on branch id and
definition id), set `crsdef_thalweg = 0.0`, replace `"yes"`/`"no"` in
`crsdef_closed` by `1`/`0`, and `drop_duplicates`.  Branch geometry lengths
come from shapely (`geometry.length`), passed in as the `lineLength`
parameter.  Fidelity note: if no row has shape `"circle"` the source raises
a `KeyError` at the `crsdef_closed` replace (the frame has no columns); the
embedding covers inputs with at least one circle row. -/

/-- Python's round-half-to-even of a rational (the rounding of `format`). -/
def pyRound (q : ℚ) : ℤ :=
  let fl := ⌊q⌋
  let frac := q - fl
  if frac < 1 / 2 then fl
  else if 1 / 2 < frac then fl + 1
  else if fl % 2 = 0 then fl else fl + 1

/-- Insert a thousands separator into a reversed digit list. -/
def groupRev : List Char → ℕ → List Char
  | [], _ => []
  | c :: cs, 3 => c :: ',' :: groupRev cs 1
  | c :: cs, k => c :: groupRev cs (k + 1)

/-- Python `"{:,.prec f}".format(q)` / `"{:.prec f}".format(q)` on the exact
rational that models the float: fixed-point with `prec` fractional digits,
half-even rounding, optional thousands grouping. -/
def formatFixed (prec : ℕ) (thousands : Bool) (q : ℚ) : String :=
  let m := pyRound (q * ((10 : ℚ) ^ prec))
  let sign := if m < 0 then "-" else ""
  let a := m.natAbs
  let ip := a / 10 ^ prec
  let fp := a % 10 ^ prec
  let ipChars := Nat.toDigits 10 ip
  let ipStr :=
    if thousands then String.mk ((groupRev ipChars.reverse 0).reverse)
    else String.mk ipChars
  let fpChars := Nat.toDigits 10 fp
  let fpStr := String.mk (List.replicate (prec - fpChars.length) '0' ++ fpChars)
  if prec = 0 then sign ++ ipStr else sign ++ ipStr ++ "." ++ fpStr

/-- `"circ_d{:,.3f}_{:s}".format(diameter, "branch")` (line 189). -/
def circDefId (diameter : ℚ) : String :=
  "circ_d" ++ formatFixed 3 true diameter ++ "_branch"

/-- One branch row, restricted to the columns the `midpoint=False` path
reads. -/
structure BranchRow where
  branchId : String
  coords : List (ℚ × ℚ)
  invlev_up : ℚ
  invlev_dn : ℚ
  shape : String
  diameter : ℚ
  frictionId : String
  frictionType : String
  frictionValue : ℚ
deriving Repr, DecidableEq

/-- A row of the intermediate `crosssections` frame built at lines 141-179
(the union of `crosssections_up` and `crosssections_dn`). -/
structure CrsInput where
  geometry : ℚ × ℚ
  crsloc_id : String
  branch_id : String
  branch_offset : ℚ
  shift : ℚ
  shape : String
  diameter : ℚ
  frictionId : String
  frictionType : String
  frictionValue : ℚ
deriving Repr, DecidableEq

/-- Upstream row (lines 141-159): geometry `Point(l.coords[0])`, offset 0,
shift `invlev_up`.  (`l.coords[0]` on an empty line would raise in shapely;
geometries here are non-empty lines, modelled by `headD`.) -/
def upCross (b : BranchRow) : CrsInput :=
  { geometry := b.coords.headD (0, 0)
    crsloc_id := "crs_up_" ++ b.branchId
    branch_id := b.branchId
    branch_offset := 0
    shift := b.invlev_up
    shape := b.shape
    diameter := b.diameter
    frictionId := b.frictionId
    frictionType := b.frictionType
    frictionValue := b.frictionValue }

/-- Downstream row (lines 160-177): geometry again `Point(l.coords[0])` —
the source reuses the FIRST coordinate — offset the full shapely length,
shift `invlev_dn`. -/
def dnCross (lineLength : List (ℚ × ℚ) → ℚ) (b : BranchRow) : CrsInput :=
  { geometry := b.coords.headD (0, 0)
    crsloc_id := "crs_dn_" ++ b.branchId
    branch_id := b.branchId
    branch_offset := lineLength b.coords
    shift := b.invlev_dn
    shape := b.shape
    diameter := b.diameter
    frictionId := b.frictionId
    frictionType := b.frictionType
    frictionValue := b.frictionValue }

/-- The `crsdef_closed` column: a string before the
`replace({"yes": 1, "no": 0})` at line 212, an int afterwards. -/
inductive ClosedCell : Type where
  | s (v : String) : ClosedCell
  | i (v : ℤ) : ClosedCell
deriving Repr, DecidableEq

/-- The `crsdef_*` record `_set_circle_crs` builds per row (lines 517-528). -/
structure CircleDefRec where
  crsdef_id : String
  crsdef_type : String
  crsdef_branchId : String
  crsdef_diameter : ℚ
  crsdef_closed : ClosedCell
  crsdef_frictionId : String
  frictionType : String
  frictionValue : ℚ
deriving Repr, DecidableEq

/-- The `crsloc_*` record `_set_circle_crs` builds per row (lines 529-538):
note `crsloc_id` is regenerated as `f"{branch_id}_{branch_offset:.2f}"`. -/
structure CrsLocRec where
  crsloc_id : String
  crsloc_branchId : String
  crsloc_chainage : ℚ
  crsloc_shift : ℚ
  crsloc_definitionId : String
  geometry : ℚ × ℚ
deriving Repr, DecidableEq

/-- A row of the final merged frame: the location columns, the definition
columns of the matching definition (`none` models the NaN right side of a
left merge without match), and the `crsdef_thalweg` column added at line
209. -/
structure CrsRow where
  loc : CrsLocRec
  defn : Option CircleDefRec
  crsdef_thalweg : ℚ
deriving Repr, DecidableEq

def circleDefRec (c : CrsInput) (defid : String) : CircleDefRec :=
  { crsdef_id := defid
    crsdef_type := "circle"
    crsdef_branchId := c.branch_id
    crsdef_diameter := c.diameter
    crsdef_closed := .s "yes"
    crsdef_frictionId := c.frictionId
    frictionType := c.frictionType
    frictionValue := c.frictionValue }

def circleLocRec (c : CrsInput) (defid : String) : CrsLocRec :=
  { crsloc_id := c.branch_id ++ "_" ++ formatFixed 2 false c.branch_offset
    crsloc_branchId := c.branch_id
    crsloc_chainage := c.branch_offset
    crsloc_shift := c.shift
    crsloc_definitionId := defid
    geometry := c.geometry }

/-- The `replace({"yes": 1, "no": 0})` on `crsdef_closed` (line 212). -/
def closedReplace (r : CrsRow) : CrsRow :=
  { r with
    defn := r.defn.map (fun d =>
      { d with
        crsdef_closed :=
          match d.crsdef_closed with
          | .s "yes" => .i 1
          | .s "no" => .i 0
          | v => v }) }

/-- The rows the left merge of `_set_circle_crs` produces for one location
row: one row per definition record with the matching
`(crsdef_branchId, crsdef_id)` key, or a single row with a null definition
side when nothing matches. -/
def circle_merge_rows (crsdefs : List CircleDefRec) (l : CrsLocRec) :
    List CrsRow :=
  let hits := crsdefs.filter (fun d =>
    d.crsdef_branchId = l.crsloc_branchId ∧ d.crsdef_id = l.crsloc_definitionId)
  if hits.isEmpty then [{ loc := l, defn := none, crsdef_thalweg := 0 }]
  else hits.map (fun d => { loc := l, defn := some d, crsdef_thalweg := 0 })

/-- `_set_circle_crs` (lines 511-547): build the two record lists and
left-merge locations with definitions on
`(crsloc_branchId, crsloc_definitionId) = (crsdef_branchId, crsdef_id)`. -/
def set_circle_crs (rows : List (CrsInput × String)) : List CrsRow :=
  let crsdefs := rows.map (fun cd => circleDefRec cd.1 cd.2)
  let crslocs := rows.map (fun cd => circleLocRec cd.1 cd.2)
  crslocs.flatMap (circle_merge_rows crsdefs)

/-- `set_branch_crosssections(branches, midpoint=False)` (crosssections.py
lines 140-216). -/
def set_branch_crosssections_endpoints (lineLength : List (ℚ × ℚ) → ℚ)
    (branches : List BranchRow) : List CrsRow :=
  let crosssections := branches.map upCross ++ branches.map (dnCross lineLength)
  let circle_crs := crosssections.filter (fun c => c.shape = "circle")
  let withdef := circle_crs.map (fun c => (c, circDefId c.diameter))
  let merged := set_circle_crs withdef
  dedupFirst (merged.map closedReplace)

/-- Keep-first deduplication commutes with filtering: an element is a first
occurrence among the `p`-rows iff it is a `p`-row and a first occurrence. -/
theorem dedupFirst_filter {α : Type} [DecidableEq α] (p : α → Bool) :
    ∀ l : List α, (dedupFirst l).filter p = dedupFirst (l.filter p)
  | [] => by
    simp [dedupFirst]
  | a :: l => by
    rw [dedupFirst, List.filter_cons]
    by_cases hp : p a = true
    · rw [if_pos hp, List.filter_cons, if_pos hp, dedupFirst]
      have hrec := dedupFirst_filter p (l.filter (fun x => x ≠ a))
      rw [hrec, List.filter_filter, List.filter_filter]
      have : (fun x => decide (x ≠ a) && p x) = (fun x => p x && decide (x ≠ a)) := by
        funext x
        exact Bool.and_comm _ _
      rw [this]
    · have hp' : p a = false := Bool.eq_false_iff.mpr hp
      rw [if_neg hp, List.filter_cons, hp']
      simp only [Bool.false_eq_true, if_false]
      have hrec := dedupFirst_filter p (l.filter (fun x => x ≠ a))
      rw [hrec, List.filter_filter]
      have : l.filter (fun x => p x && decide (x ≠ a)) = l.filter p := by
        apply List.filter_congr
        intro x _
        by_cases hxa : x = a
        · subst hxa
          simp [hp']
        · simp [hxa]
      rw [this]
termination_by l => l.length
decreasing_by
  all_goals
    simp only [List.length_cons]
    exact Nat.lt_succ_of_le (List.length_filter_le _ _)

/-- Filtering a list whose key projection is duplicate-free by "same key as
`x`, and `q`" yields `[x]` or `[]` according to `q x`. -/
theorem filter_key_nodup {α β : Type} [DecidableEq β] (f : α → β)
    (q : α → Bool) : ∀ (l : List α), (l.map f).Nodup → ∀ x ∈ l,
    l.filter (fun y => q y && decide (f y = f x)) = if q x then [x] else [] := by
  intro l
  induction l with
  | nil => intro _ x hx; simp at hx
  | cons a t ih =>
    intro hnd x hx
    rw [List.map_cons, List.nodup_cons] at hnd
    rcases hnd with ⟨hfa, hndt⟩
    rcases List.mem_cons.mp hx with rfl | hxt
    · rw [List.filter_cons]
      have htail : t.filter (fun y => q y && decide (f y = f x)) = [] := by
        refine List.filter_eq_nil_iff.mpr ?_
        intro y hy
        have hne : f y ≠ f x := by
          intro he
          exact hfa (he ▸ List.mem_map_of_mem f hy)
        simp [hne]
      by_cases hq : q x = true
      · rw [htail]
        simp [hq]
      · have hq' : q x = false := Bool.eq_false_iff.mpr hq
        rw [htail]
        simp [hq']
    · rw [List.filter_cons]
      have hhead : (q a && decide (f a = f x)) = false := by
        have hne : f a ≠ f x := by
          intro he
          exact hfa (he ▸ List.mem_map_of_mem f hxt)
        simp [hne]
      rw [hhead]
      simp only [Bool.false_eq_true, if_false]
      exact ih hndt x hxt

/-- The upstream row `set_branch_crosssections(midpoint=False)` produces for
a circle-shaped branch, after the merge, the thalweg column and the
`closed` replace: chainage 0, shift `invlev_up`, geometry the first
coordinate of the branch line. -/
def circleUpRow (b : BranchRow) : CrsRow :=
  { loc := { crsloc_id := b.branchId ++ "_" ++ formatFixed 2 false 0
             crsloc_branchId := b.branchId
             crsloc_chainage := 0
             crsloc_shift := b.invlev_up
             crsloc_definitionId := circDefId b.diameter
             geometry := b.coords.headD (0, 0) }
    defn := some { crsdef_id := circDefId b.diameter
                   crsdef_type := "circle"
                   crsdef_branchId := b.branchId
                   crsdef_diameter := b.diameter
                   crsdef_closed := .i 1
                   crsdef_frictionId := b.frictionId
                   frictionType := b.frictionType
                   frictionValue := b.frictionValue }
    crsdef_thalweg := 0 }

/-- The downstream row for a circle-shaped branch: chainage the full shapely
length, shift `invlev_dn` — but geometry again the FIRST coordinate of the
branch line (source lines 161-166). -/
def circleDnRow (lineLength : List (ℚ × ℚ) → ℚ) (b : BranchRow) : CrsRow :=
  { loc := { crsloc_id := b.branchId ++ "_"
               ++ formatFixed 2 false (lineLength b.coords)
             crsloc_branchId := b.branchId
             crsloc_chainage := lineLength b.coords
             crsloc_shift := b.invlev_dn
             crsloc_definitionId := circDefId b.diameter
             geometry := b.coords.headD (0, 0) }
    defn := some { crsdef_id := circDefId b.diameter
                   crsdef_type := "circle"
                   crsdef_branchId := b.branchId
                   crsdef_diameter := b.diameter
                   crsdef_closed := .i 1
                   crsdef_frictionId := b.frictionId
                   frictionType := b.frictionType
                   frictionValue := b.frictionValue }
    crsdef_thalweg := 0 }

theorem circle_merge_rows_loc (crsdefs : List CircleDefRec) (l : CrsLocRec) :
    ∀ x ∈ circle_merge_rows crsdefs l, x.loc = l := by
  intro x hx
  unfold circle_merge_rows at hx
  by_cases hempty : (crsdefs.filter (fun d =>
      d.crsdef_branchId = l.crsloc_branchId
        ∧ d.crsdef_id = l.crsloc_definitionId)).isEmpty
  · rw [if_pos hempty] at hx
    rcases List.mem_singleton.mp hx with rfl
    rfl
  · rw [if_neg hempty] at hx
    rcases List.mem_map.mp hx with ⟨d, _, rfl⟩
    rfl

/-- Rows of `set_branch_crosssections(midpoint=False)` for one circle-shaped
branch `b` of a table with distinct branch ids and a branch line of nonzero
length: exactly the up and down rows. -/
theorem set_branch_crs_filter_circle (lineLength : List (ℚ × ℚ) → ℚ)
    (branches : List BranchRow) (b : BranchRow)
    (hmem : b ∈ branches)
    (hnd : (branches.map BranchRow.branchId).Nodup)
    (hshape : b.shape = "circle")
    (hlen : lineLength b.coords ≠ 0) :
    (set_branch_crosssections_endpoints lineLength branches).filter
      (fun r => r.loc.crsloc_branchId = b.branchId)
      = [circleUpRow b, circleDnRow lineLength b] := by
  simp only [set_branch_crosssections_endpoints, set_circle_crs]
  rw [dedupFirst_filter, List.filter_map]
  have hcomp : ((fun r : CrsRow => decide (r.loc.crsloc_branchId = b.branchId))
      ∘ closedReplace)
      = (fun r : CrsRow => decide (r.loc.crsloc_branchId = b.branchId)) := rfl
  rw [hcomp, filter_flatMap]
  rw [List.map_map, List.map_map]
  set CC := (List.map upCross branches
      ++ List.map (dnCross lineLength) branches).filter
    (fun c => c.shape = "circle") with hCC
  set LF := ((fun cd : CrsInput × String => circleLocRec cd.1 cd.2)
      ∘ fun c => (c, circDefId c.diameter)) with hLF
  set DF := ((fun cd : CrsInput × String => circleDefRec cd.1 cd.2)
      ∘ fun c => (c, circDefId c.diameter)) with hDF
  have hdead : ∀ l ∈ CC.map LF,
      (decide (l.crsloc_branchId = b.branchId)) = false →
      (fun x => List.filter
          (fun r => decide (r.loc.crsloc_branchId = b.branchId))
          (circle_merge_rows (CC.map DF) x)) l = [] := by
    intro l _ hl
    refine List.filter_eq_nil_iff.mpr ?_
    intro x hx
    have hxl := circle_merge_rows_loc _ l x hx
    simp only [decide_eq_false_iff_not] at hl
    simp [hxl, hl]
  rw [flatMap_eq_filter_flatMap _ _
    (fun l : CrsLocRec => decide (l.crsloc_branchId = b.branchId)) hdead]
  have hlocs : (CC.map LF).filter
      (fun l => decide (l.crsloc_branchId = b.branchId))
      = [LF (upCross b), LF (dnCross lineLength b)] := by
    rw [List.filter_map, hLF]
    have hc2 : ((fun l : CrsLocRec => decide (l.crsloc_branchId = b.branchId))
        ∘ ((fun cd : CrsInput × String => circleLocRec cd.1 cd.2)
          ∘ fun c => (c, circDefId c.diameter)))
        = fun c : CrsInput => decide (c.branch_id = b.branchId) := rfl
    rw [hc2, hCC, List.filter_filter, List.filter_append, List.filter_map,
      List.filter_map]
    have hup : ((fun c : CrsInput => decide (c.branch_id = b.branchId)
          && decide (c.shape = "circle")) ∘ upCross)
        = fun br : BranchRow => decide (br.shape = "circle")
          && decide (br.branchId = b.branchId) := by
      funext br
      exact Bool.and_comm _ _
    have hdn : ((fun c : CrsInput => decide (c.branch_id = b.branchId)
          && decide (c.shape = "circle")) ∘ dnCross lineLength)
        = fun br : BranchRow => decide (br.shape = "circle")
          && decide (br.branchId = b.branchId) := by
      funext br
      exact Bool.and_comm _ _
    rw [hup, hdn,
      filter_key_nodup BranchRow.branchId
        (fun br => decide (br.shape = "circle")) branches hnd b hmem]
    simp [hshape]
  rw [hlocs]
  have hhits : ∀ l0 : CrsLocRec, l0.crsloc_branchId = b.branchId →
      l0.crsloc_definitionId = circDefId b.diameter →
      (CC.map DF).filter (fun d =>
        d.crsdef_branchId = l0.crsloc_branchId
          ∧ d.crsdef_id = l0.crsloc_definitionId)
      = [DF (upCross b), DF (dnCross lineLength b)] := by
    intro l0 hb0 hd0
    rw [List.filter_map, hDF]
    have hc3 : ((fun d : CircleDefRec =>
          decide (d.crsdef_branchId = l0.crsloc_branchId
            ∧ d.crsdef_id = l0.crsloc_definitionId))
        ∘ ((fun cd : CrsInput × String => circleDefRec cd.1 cd.2)
          ∘ fun c => (c, circDefId c.diameter)))
        = fun c : CrsInput => decide (c.branch_id = l0.crsloc_branchId
            ∧ circDefId c.diameter = l0.crsloc_definitionId) := rfl
    rw [hc3, hb0, hd0, hCC, List.filter_filter, List.filter_append,
      List.filter_map, List.filter_map]
    have hup2 : ((fun c : CrsInput =>
          decide (c.branch_id = b.branchId
            ∧ circDefId c.diameter = circDefId b.diameter)
          && decide (c.shape = "circle")) ∘ upCross)
        = fun br : BranchRow =>
          (decide (circDefId br.diameter = circDefId b.diameter)
            && decide (br.shape = "circle"))
          && decide (br.branchId = b.branchId) := by
      funext br
      show (decide (br.branchId = b.branchId
          ∧ circDefId br.diameter = circDefId b.diameter)
          && decide (br.shape = "circle")) = _
      by_cases h1 : br.branchId = b.branchId
        <;> by_cases h2 : circDefId br.diameter = circDefId b.diameter
        <;> simp [h1, h2]
    have hdn2 : ((fun c : CrsInput =>
          decide (c.branch_id = b.branchId
            ∧ circDefId c.diameter = circDefId b.diameter)
          && decide (c.shape = "circle")) ∘ dnCross lineLength)
        = fun br : BranchRow =>
          (decide (circDefId br.diameter = circDefId b.diameter)
            && decide (br.shape = "circle"))
          && decide (br.branchId = b.branchId) := by
      funext br
      show (decide (br.branchId = b.branchId
          ∧ circDefId br.diameter = circDefId b.diameter)
          && decide (br.shape = "circle")) = _
      by_cases h1 : br.branchId = b.branchId
        <;> by_cases h2 : circDefId br.diameter = circDefId b.diameter
        <;> simp [h1, h2]
    rw [hup2, hdn2,
      filter_key_nodup BranchRow.branchId
        (fun br => decide (circDefId br.diameter = circDefId b.diameter)
          && decide (br.shape = "circle")) branches hnd b hmem]
    simp [hshape]
  have hmrUp : circle_merge_rows (CC.map DF) (LF (upCross b))
      = [{ loc := LF (upCross b), defn := some (DF (upCross b)),
           crsdef_thalweg := 0 },
         { loc := LF (upCross b), defn := some (DF (dnCross lineLength b)),
           crsdef_thalweg := 0 }] := by
    unfold circle_merge_rows
    rw [hhits (LF (upCross b)) rfl rfl]
    rw [if_neg (by simp)]
    rfl
  have hmrDn : circle_merge_rows (CC.map DF) (LF (dnCross lineLength b))
      = [{ loc := LF (dnCross lineLength b), defn := some (DF (upCross b)),
           crsdef_thalweg := 0 },
         { loc := LF (dnCross lineLength b),
           defn := some (DF (dnCross lineLength b)), crsdef_thalweg := 0 }] := by
    unfold circle_merge_rows
    rw [hhits (LF (dnCross lineLength b)) rfl rfl]
    rw [if_neg (by simp)]
    rfl
  rw [List.flatMap_cons, List.flatMap_cons, List.flatMap_nil,
    List.append_nil, hmrUp, hmrDn]
  have hbup : (LF (upCross b)).crsloc_branchId = b.branchId := rfl
  have hbdn : (LF (dnCross lineLength b)).crsloc_branchId = b.branchId := rfl
  have hfUp : List.filter
      (fun r : CrsRow => decide (r.loc.crsloc_branchId = b.branchId))
      [{ loc := LF (upCross b), defn := some (DF (upCross b)),
         crsdef_thalweg := 0 },
       { loc := LF (upCross b), defn := some (DF (dnCross lineLength b)),
         crsdef_thalweg := 0 }]
      = [{ loc := LF (upCross b), defn := some (DF (upCross b)),
           crsdef_thalweg := 0 },
         { loc := LF (upCross b), defn := some (DF (dnCross lineLength b)),
           crsdef_thalweg := 0 }] := by
    simp [hbup]
  have hfDn : List.filter
      (fun r : CrsRow => decide (r.loc.crsloc_branchId = b.branchId))
      [{ loc := LF (dnCross lineLength b), defn := some (DF (upCross b)),
         crsdef_thalweg := 0 },
       { loc := LF (dnCross lineLength b),
         defn := some (DF (dnCross lineLength b)), crsdef_thalweg := 0 }]
      = [{ loc := LF (dnCross lineLength b), defn := some (DF (upCross b)),
           crsdef_thalweg := 0 },
         { loc := LF (dnCross lineLength b),
           defn := some (DF (dnCross lineLength b)), crsdef_thalweg := 0 }] := by
    simp [hbdn]
  rw [hfUp, hfDn]
  have hcr1 : closedReplace
      { loc := LF (upCross b), defn := some (DF (upCross b)),
        crsdef_thalweg := 0 }
      = circleUpRow b := rfl
  have hcr2 : closedReplace
      { loc := LF (upCross b), defn := some (DF (dnCross lineLength b)),
        crsdef_thalweg := 0 }
      = circleUpRow b := rfl
  have hcr3 : closedReplace
      { loc := LF (dnCross lineLength b), defn := some (DF (upCross b)),
        crsdef_thalweg := 0 }
      = circleDnRow lineLength b := rfl
  have hcr4 : closedReplace
      { loc := LF (dnCross lineLength b),
        defn := some (DF (dnCross lineLength b)), crsdef_thalweg := 0 }
      = circleDnRow lineLength b := rfl
  rw [List.cons_append, List.cons_append, List.nil_append, List.map_cons,
    List.map_cons, List.map_cons, List.map_cons, List.map_nil,
    hcr1, hcr2, hcr3, hcr4]
  have hAB : circleUpRow b ≠ circleDnRow lineLength b := by
    intro h
    apply hlen
    have hch := congrArg (fun r : CrsRow => r.loc.crsloc_chainage) h
    simpa [circleUpRow, circleDnRow] using hch.symm
  rw [dedupFirst]
  have hf1 : [circleUpRow b, circleDnRow lineLength b,
      circleDnRow lineLength b].filter (fun x => x ≠ circleUpRow b)
      = [circleDnRow lineLength b, circleDnRow lineLength b] := by
    simp [Ne.symm hAB]
  rw [hf1, dedupFirst]
  have hf2 : [circleDnRow lineLength b].filter
      (fun x => x ≠ circleDnRow lineLength b) = [] := by
    simp
  rw [hf2, dedupFirst]

/-- Membership in the deduplicated list implies membership in the list. -/
theorem mem_of_mem_dedupFirst {α : Type} [DecidableEq α] :
    ∀ (l : List α), ∀ x ∈ dedupFirst l, x ∈ l
  | [] => by
    intro x hx
    simp [dedupFirst] at hx
  | a :: l => by
    intro x hx
    rw [dedupFirst] at hx
    rcases List.mem_cons.mp hx with rfl | hx'
    · exact List.mem_cons_self _ _
    · have hmem := mem_of_mem_dedupFirst (l.filter (fun y => y ≠ a)) x hx'
      exact List.mem_cons_of_mem a (List.mem_of_mem_filter hmem)
termination_by l => l.length
decreasing_by
  simp only [List.length_cons]
  exact Nat.lt_succ_of_le (List.length_filter_le _ _)

/-- A branch id carried only by non-circle branches gets no rows at all from
`set_branch_crosssections(midpoint=False)`. -/
theorem set_branch_crs_filter_empty (lineLength : List (ℚ × ℚ) → ℚ)
    (branches : List BranchRow) (bid : String)
    (h : ∀ br ∈ branches, br.branchId = bid → ¬ br.shape = "circle") :
    (set_branch_crosssections_endpoints lineLength branches).filter
      (fun r => r.loc.crsloc_branchId = bid) = [] := by
  refine List.filter_eq_nil_iff.mpr ?_
  intro x hx
  simp only [set_branch_crosssections_endpoints, set_circle_crs] at hx
  have hx' := mem_of_mem_dedupFirst _ x hx
  rcases List.mem_map.mp hx' with ⟨y, hy, rfl⟩
  rcases List.mem_flatMap.mp hy with ⟨l, hl, hyl⟩
  have hylloc := circle_merge_rows_loc _ l y hyl
  rcases List.mem_map.mp hl with ⟨cd, hcd, rfl⟩
  rcases List.mem_map.mp hcd with ⟨c, hc, rfl⟩
  rcases List.mem_filter.mp hc with ⟨hcmem, hcshape⟩
  have hcbranch : ∃ br ∈ branches, c.branch_id = br.branchId
      ∧ c.shape = br.shape := by
    rcases List.mem_append.mp hcmem with hup | hdn
    · rcases List.mem_map.mp hup with ⟨br, hbr, rfl⟩
      exact ⟨br, hbr, rfl, rfl⟩
    · rcases List.mem_map.mp hdn with ⟨br, hbr, rfl⟩
      exact ⟨br, hbr, rfl, rfl⟩
  rcases hcbranch with ⟨br, hbr, hcb, hcs⟩
  have hshape' : br.shape = "circle" := by
    rw [← hcs]
    simpa using hcshape
  have hxloc : (closedReplace y).loc.crsloc_branchId = c.branch_id := by
    show y.loc.crsloc_branchId = c.branch_id
    rw [hylloc]
    rfl
  simp only [decide_eq_true_eq, hxloc, hcb]
  intro hbid
  exact h br hbr hbid hshape'

/-- Two branches for the C3 counterexample: a circle pipe `b1` and a
rectangle branch `b2`. -/
def exBranchesC3 : List BranchRow :=
  [{ branchId := "b1", coords := [(0, 0), (100, 0)], invlev_up := -2,
     invlev_dn := -23/10, shape := "circle", diameter := 1/2,
     frictionId := "WhiteColebrook_0.003", frictionType := "WhiteColebrook",
     frictionValue := 3/1000 },
   { branchId := "b2", coords := [(0, 0), (0, 50)], invlev_up := -2,
     invlev_dn := -2, shape := "rectangle", diameter := 1/2,
     frictionId := "WhiteColebrook_0.003", frictionType := "WhiteColebrook",
     frictionValue := 3/1000 }]

/-- C3, counterexample: branch `b2` is in the input table, but
`set_branch_crosssections(midpoint=False)` produces NO location rows for it
(its shape, `rectangle`, is not handled by the `midpoint=False` path, which
only supports circles) — not the two rows the claim asserts for every
branch. -/
theorem c3_counterexample_rectangle_branch_gets_no_rows :
    "b2" ∈ exBranchesC3.map BranchRow.branchId
    ∧ (set_branch_crosssections_endpoints (fun _ => 100) exBranchesC3).filter
        (fun r => r.loc.crsloc_branchId = "b2") = [] :=
  ⟨by decide,
    set_branch_crs_filter_empty (fun _ => 100) exBranchesC3 "b2" (by decide)⟩

/-- C3, amended: for every branch of shape `"circle"` in a table with
distinct branch ids and a branch line of nonzero shapely length,
`set_branch_crosssections` with `midpoint=False` produces exactly two
cross-section location rows for that branch: one with chainage 0 and shift
`invlev_up`, and one with chainage the branch geometry's full length and
shift `invlev_dn`.  (A branch of any other shape gets no rows: the
`midpoint=False` path only supports circle profiles.) -/
theorem c3_circle_branch_two_endpoint_rows (lineLength : List (ℚ × ℚ) → ℚ)
    (branches : List BranchRow) (b : BranchRow)
    (hmem : b ∈ branches)
    (hnd : (branches.map BranchRow.branchId).Nodup)
    (hshape : b.shape = "circle")
    (hlen : lineLength b.coords ≠ 0) :
    ∃ up dn,
      (set_branch_crosssections_endpoints lineLength branches).filter
        (fun r => r.loc.crsloc_branchId = b.branchId) = [up, dn]
      ∧ up.loc.crsloc_chainage = 0
      ∧ up.loc.crsloc_shift = b.invlev_up
      ∧ dn.loc.crsloc_chainage = lineLength b.coords
      ∧ dn.loc.crsloc_shift = b.invlev_dn :=
  ⟨circleUpRow b, circleDnRow lineLength b,
    set_branch_crs_filter_circle lineLength branches b hmem hnd hshape hlen,
    rfl, rfl, rfl, rfl⟩

/-- A circle pipe for the C3 and C10 witnesses. -/
def exCircleB : BranchRow :=
  { branchId := "pipe_1", coords := [(0, 0), (100, 0)], invlev_up := -2,
    invlev_dn := -23/10, shape := "circle", diameter := 1/2,
    frictionId := "WhiteColebrook_0.003", frictionType := "WhiteColebrook",
    frictionValue := 3/1000 }

/-- A one-branch circle table for the C3 and C10 witnesses, with a length
function standing in for shapely's `length`. -/
def exBranchesCircle : List BranchRow := [exCircleB]

def exLenC3 : List (ℚ × ℚ) → ℚ := fun _ => 100

theorem c3_circle_branch_two_endpoint_rows_witness :
    (exCircleB ∈ exBranchesCircle
      ∧ (exBranchesCircle.map BranchRow.branchId).Nodup
      ∧ exCircleB.shape = "circle"
      ∧ exLenC3 exCircleB.coords ≠ 0)
    ∧ ∃ up dn,
      (set_branch_crosssections_endpoints exLenC3 exBranchesCircle).filter
        (fun r => r.loc.crsloc_branchId
          = exCircleB.branchId) = [up, dn]
      ∧ up.loc.crsloc_chainage = 0
      ∧ up.loc.crsloc_shift = exCircleB.invlev_up
      ∧ dn.loc.crsloc_chainage = exLenC3 exCircleB.coords
      ∧ dn.loc.crsloc_shift = exCircleB.invlev_dn :=
  ⟨⟨List.mem_cons_self _ _, by decide, by decide, by decide⟩,
    c3_circle_branch_two_endpoint_rows exLenC3 exBranchesCircle
      exCircleB (List.mem_cons_self _ _) (by decide) (by decide)
      (by decide)⟩

/-- C10: for every circle-shaped branch processed with `midpoint=False`
(distinct ids, nonzero length), the geometry stored on both the upstream and
the downstream row is the point at the FIRST coordinate of the branch line;
in particular, when the branch line's endpoints differ, the downstream row's
geometry is not the downstream endpoint, even though its chainage is the
full branch length. -/
theorem c10_both_rows_use_first_coordinate (lineLength : List (ℚ × ℚ) → ℚ)
    (branches : List BranchRow) (b : BranchRow)
    (hmem : b ∈ branches)
    (hnd : (branches.map BranchRow.branchId).Nodup)
    (hshape : b.shape = "circle")
    (hlen : lineLength b.coords ≠ 0)
    (hends : b.coords.headD (0, 0) ≠ b.coords.getLastD (0, 0)) :
    ∃ up dn,
      (set_branch_crosssections_endpoints lineLength branches).filter
        (fun r => r.loc.crsloc_branchId = b.branchId) = [up, dn]
      ∧ up.loc.geometry = b.coords.headD (0, 0)
      ∧ dn.loc.geometry = b.coords.headD (0, 0)
      ∧ dn.loc.crsloc_chainage = lineLength b.coords
      ∧ dn.loc.geometry ≠ b.coords.getLastD (0, 0) :=
  ⟨circleUpRow b, circleDnRow lineLength b,
    set_branch_crs_filter_circle lineLength branches b hmem hnd hshape hlen,
    rfl, rfl, rfl, hends⟩

theorem c10_both_rows_use_first_coordinate_witness :
    (exCircleB ∈ exBranchesCircle
      ∧ (exBranchesCircle.map BranchRow.branchId).Nodup
      ∧ exCircleB.shape = "circle"
      ∧ exLenC3 exCircleB.coords ≠ 0
      ∧ exCircleB.coords.headD (0, 0)
        ≠ exCircleB.coords.getLastD (0, 0))
    ∧ ∃ up dn,
      (set_branch_crosssections_endpoints exLenC3 exBranchesCircle).filter
        (fun r => r.loc.crsloc_branchId
          = exCircleB.branchId) = [up, dn]
      ∧ up.loc.geometry = exCircleB.coords.headD (0, 0)
      ∧ dn.loc.geometry = exCircleB.coords.headD (0, 0)
      ∧ dn.loc.crsloc_chainage
        = exLenC3 exCircleB.coords
      ∧ dn.loc.geometry
        ≠ exCircleB.coords.getLastD (0, 0) :=
  ⟨⟨List.mem_cons_self _ _, by decide, by decide, by decide, by decide⟩,
    c10_both_rows_use_first_coordinate exLenC3 exBranchesCircle
      exCircleB (List.mem_cons_self _ _) (by decide) (by decide)
      (by decide) (by decide)⟩

end Hydrolib
